import Mathlib

/-!
# FilesystemLearning: the size and count statistics of `traversal`

A shallow embedding of `src/main.cpp`.

* The filesystem is an input.  An `Entry` records, for one path, what the three
  filesystem queries of the program answer there: `status().type()`,
  `file_size(path)` and `directory_iterator(path)`; a query that throws is `none`.
* `size_t` is a 64-bit unsigned integer: every addition and increment is taken
  modulo `2 ^ 64`.
* `double` is idealised by `ℚ` (exact for byte counts below `2 ^ 53`).
* A `rapidjson::Value` is a `value`; an object is the list of its members in the
  order `AddMember` added them.
* An exception leaves `traversal` without a result: the embedding returns `none`.
* Every caller hands `traversal` a fresh empty object as `val` (lines 112 and
  156 to 158); the embedding returns the object filled from the empty one.
-/

namespace FsLearning

/-! ## Data model -/

/-- The enumeration `boost::filesystem::file_type`. -/
inductive file_type where
  | status_error
  | file_not_found
  | regular_file
  | directory_file
  | symlink_file
  | block_file
  | character_file
  | fifo_file
  | socket_file
  | reparse_file
  | type_unknown
  deriving DecidableEq, Repr

/-- One filesystem entry as the program observes it: its path, the type its status
reports, the answer of `file_size` (`none`: the query throws) and the answer of
`directory_iterator` (`none`: the listing throws; otherwise the entries in
listing order). -/
inductive Entry where
  | mk (path : String) (type : file_type) (size : Option Nat)
      (listing : Option (List Entry))

/-- The path of an entry. -/
def Entry.path : Entry → String
  | Entry.mk p _ _ _ => p

/-- The status type of an entry. -/
def Entry.type : Entry → file_type
  | Entry.mk _ t _ _ => t

/-- The answer of `file_size` at an entry. -/
def Entry.size : Entry → Option Nat
  | Entry.mk _ _ s _ => s

/-- A regular file of the given size whose size query succeeds. -/
def Entry.file (path : String) (size : Nat) : Entry :=
  Entry.mk path file_type.regular_file (some size) none

/-- A directory whose listing succeeds with the given entries. -/
def Entry.dir (path : String) (entries : List Entry) : Entry :=
  Entry.mk path file_type.directory_file none (some entries)

/-- A JSON value of the report (`rapidjson::Value`). -/
inductive value where
  | kString (s : String)
  | kUint64 (u : Nat)
  | kDouble (d : ℚ)
  | kArray (elements : List value)
  | kObject (members : List (String × value))

/-- The member-adding operation of an object: the member goes to the end. -/
def value.AddMember : value → String → value → value
  | value.kObject ms, name, v => value.kObject (ms ++ [(name, v)])
  | other, _, _ => other

/-- The first member of an object with the given name, if any. -/
def value.FindMember : value → String → Option value
  | value.kObject ms, name => (ms.find? (fun m => m.1 == name)).map Prod.snd
  | _, _ => none

/-- Whether an object has a member of the given name. -/
def value.HasMember (v : value) (name : String) : Bool :=
  (v.FindMember name).isSome

/-- The modulus of `size_t` arithmetic. -/
def SIZE_MODULUS : Nat := 2 ^ 64

/-- The value `numeric_limits<size_t>::max()`. -/
def SIZE_MAX : Nat := 2 ^ 64 - 1

/-- The value `numeric_limits<size_t>::min()`. -/
def SIZE_MIN : Nat := 0

/-- The constant `unknown_path`. -/
def unknown_path : String := "[unknown]"

/-- The struct `result`, with its default member initialisers. -/
structure result where
  total_size : Nat := 0
  recursive_total_size : Nat := 0
  file_count : Nat := 0
  recursive_file_count : Nat := 0
  directory_count : Nat := 0
  recursive_directory_count : Nat := 0
  path : String := unknown_path
  type : file_type := file_type.status_error

/-! ## The program -/

/-- The function `convert_bytes_to_kb`: `static_cast<double>(bytes) / (2 << 10)`. -/
def convert_bytes_to_kb (bytes : ℚ) : ℚ :=
  bytes / ((2 <<< 10 : Nat) : ℚ)

/-- The function `set_value_with_attributes`: the members it adds to `root`. -/
def set_value_with_attributes (root : value) (path : String) (type : file_type)
    (level total_size recursive_total_size : Nat)
    (average_size recursive_average_size : ℚ)
    (file_count recursive_file_count directory_count recursive_directory_count : Nat)
    (files : List value)
    (maximum_size : Nat) (maximum_path : String)
    (minimum_size : Nat) (minimum_path : String) : value :=
  let root := root.AddMember "Path" (value.kString path)
  let root := root.AddMember "Type"
    (value.kString (if type = file_type.regular_file then "Regular" else "Directory"))
  let root := root.AddMember "Level" (value.kUint64 level)
  let root := root.AddMember "Total size" (value.kDouble (convert_bytes_to_kb total_size))
  let root := root.AddMember "Recursive total size"
    (value.kDouble (convert_bytes_to_kb recursive_total_size))
  let root := root.AddMember "Average size" (value.kDouble (convert_bytes_to_kb average_size))
  let root := root.AddMember "Recursive average size"
    (value.kDouble (convert_bytes_to_kb recursive_average_size))
  let root := root.AddMember "File count" (value.kUint64 file_count)
  let root := root.AddMember "Recursive file count" (value.kUint64 recursive_file_count)
  let root := root.AddMember "Directory count" (value.kUint64 directory_count)
  let root := root.AddMember "Recursive directory count"
    (value.kUint64 recursive_directory_count)
  if type = file_type.directory_file then
    if files.length > 0 then
      let root := root.AddMember "Files" (value.kArray files)
      let max := ((value.kObject []).AddMember "Size"
        (value.kDouble (convert_bytes_to_kb maximum_size))).AddMember "Path"
        (value.kString maximum_path)
      let min := ((value.kObject []).AddMember "Size"
        (value.kDouble (convert_bytes_to_kb minimum_size))).AddMember "Path"
        (value.kString minimum_path)
      (root.AddMember "Maximum" max).AddMember "Minimum" min
    else root
  else root

/-- The mutable locals of one call of `traversal`: the result `r`, the elements
of the array `files`, and the running extrema. -/
structure locals where
  r : result
  files : List value
  maximum_size : Nat
  maximum_path : String
  minimum_size : Nat
  minimum_path : String

/-- The locals as `traversal` initialises them (lines 93 to 99). -/
def locals.init (type : file_type) : locals :=
  { r := { type := type }
    files := []
    maximum_size := SIZE_MIN
    maximum_path := unknown_path
    minimum_size := SIZE_MAX
    minimum_path := unknown_path }

/-- The body of the loop over the directory entries (lines 114 to 134), once the
recursive call has returned `sub_r` and filled the object `file`. -/
def loop_body (st : locals) (sub_r : result) (file : value) : locals :=
  let st :=
    if sub_r.type = file_type.directory_file then
      let r := st.r
      let r := { r with recursive_total_size :=
        (r.recursive_total_size + sub_r.recursive_total_size) % SIZE_MODULUS }
      let r := { r with recursive_directory_count :=
        (r.recursive_directory_count + sub_r.recursive_directory_count) % SIZE_MODULUS }
      let r := { r with recursive_file_count :=
        (r.recursive_file_count + sub_r.recursive_file_count) % SIZE_MODULUS }
      let r := { r with recursive_directory_count :=
        (r.recursive_directory_count + 1) % SIZE_MODULUS }
      let r := { r with directory_count := (r.directory_count + 1) % SIZE_MODULUS }
      { st with r := r }
    else
      let r := st.r
      let r := { r with recursive_total_size :=
        (r.recursive_total_size + sub_r.recursive_total_size) % SIZE_MODULUS }
      let r := { r with total_size := (r.total_size + sub_r.total_size) % SIZE_MODULUS }
      let r := { r with recursive_file_count :=
        (r.recursive_file_count + 1) % SIZE_MODULUS }
      let r := { r with file_count := (r.file_count + 1) % SIZE_MODULUS }
      let st := { st with r := r }
      let st :=
        if sub_r.total_size > st.maximum_size then
          { st with maximum_size := sub_r.total_size, maximum_path := sub_r.path }
        else st
      let st :=
        if sub_r.total_size < st.minimum_size then
          { st with minimum_size := sub_r.total_size, minimum_path := sub_r.path }
        else st
      st
  { st with files := st.files ++ [file] }

/-- The average handed to the renderer as `average_size` (line 140): an integer
division of `size_t` values, guarded against a zero count. -/
def average_size (r : result) : Nat :=
  if r.file_count = 0 then 0 else r.total_size / r.file_count

/-- The average handed to the renderer as `recursive_average_size` (line 141). -/
def recursive_average_size (r : result) : Nat :=
  if r.recursive_file_count = 0 then 0
  else r.recursive_total_size / r.recursive_file_count

/-- The call of `set_value_with_attributes` that ends `traversal` (lines 137 to
144), on the empty object every caller supplies as `val`. -/
def finish (path : String) (level : Nat) (st : locals) : result × value :=
  (st.r,
   set_value_with_attributes (value.kObject []) path st.r.type level
     st.r.total_size st.r.recursive_total_size
     ((average_size st.r : Nat) : ℚ) ((recursive_average_size st.r : Nat) : ℚ)
     st.r.file_count st.r.recursive_file_count
     st.r.directory_count st.r.recursive_directory_count
     st.files st.maximum_size st.maximum_path st.minimum_size st.minimum_path)

mutual
/-- The function `traversal`: the result it returns and the object it fills, or
`none` when a filesystem query throws. -/
def traversal : Entry → Nat → Option (result × value)
  | Entry.mk path type size listing, level =>
    let st := locals.init type
    if type = file_type.regular_file then
      match size with
      | none => none
      | some s =>
        let r := st.r
        let r := { r with total_size := s % SIZE_MODULUS }
        let r := { r with recursive_total_size := s % SIZE_MODULUS }
        let r := { r with file_count := 1 }
        let r := { r with recursive_file_count := 1 }
        let r := { r with directory_count := 0 }
        let r := { r with recursive_directory_count := 0 }
        let r := { r with path := path }
        some (finish path level { st with r := r })
    else
      match listing with
      | none => none
      | some entries =>
        match for_loop entries ((level + 1) % SIZE_MODULUS) st with
        | none => none
        | some st => some (finish path level st)
/-- The range-based loop of `traversal` over the directory entries: each entry is
traversed one level down and folded into the locals by `loop_body`. -/
def for_loop : List Entry → Nat → locals → Option locals
  | [], _, st => some st
  | current :: rest, sub_level, st =>
    match traversal current sub_level with
    | none => none
    | some (sub_r, file) => for_loop rest sub_level (loop_body st sub_r file)
end

/-! ## Reference quantities of a tree -/

/-- The entries a listing yields at an entry (none when the listing throws). -/
def Entry.entries : Entry → List Entry
  | Entry.mk _ _ _ l => l.getD []

mutual
/-- Every node of the tree is a regular file whose size query succeeds (with a
size that fits `uintmax_t`) or a directory whose listing succeeds. -/
def Entry.regular_or_directory : Entry → Bool
  | Entry.mk _ type size listing =>
    if type = file_type.regular_file then
      match size with
      | none => false
      | some s => decide (s < SIZE_MODULUS)
    else if type = file_type.directory_file then
      match listing with
      | none => false
      | some entries => all_regular_or_directory entries
    else false
/-- Every tree of the list satisfies `Entry.regular_or_directory`. -/
def all_regular_or_directory : List Entry → Bool
  | [] => true
  | e :: rest => e.regular_or_directory && all_regular_or_directory rest
end

mutual
/-- The sum of the byte sizes of all regular files in the subtree of an entry,
the entry itself included when it is a regular file. -/
def Entry.subtree_bytes : Entry → Nat
  | Entry.mk _ type size listing =>
    if type = file_type.regular_file then size.getD 0
    else
      match listing with
      | none => 0
      | some entries => subtree_bytes_list entries
/-- The sum of `Entry.subtree_bytes` over a list of entries. -/
def subtree_bytes_list : List Entry → Nat
  | [] => 0
  | e :: rest => e.subtree_bytes + subtree_bytes_list rest
end

mutual
/-- The number of regular files in the subtree of an entry, the entry itself
included when it is a regular file. -/
def Entry.subtree_files : Entry → Nat
  | Entry.mk _ type _ listing =>
    if type = file_type.regular_file then 1
    else
      match listing with
      | none => 0
      | some entries => subtree_files_list entries
/-- The sum of `Entry.subtree_files` over a list of entries. -/
def subtree_files_list : List Entry → Nat
  | [] => 0
  | e :: rest => e.subtree_files + subtree_files_list rest
end

mutual
/-- The number of directories strictly below an entry, at any depth. -/
def Entry.subtree_directories : Entry → Nat
  | Entry.mk _ type _ listing =>
    if type = file_type.regular_file then 0
    else
      match listing with
      | none => 0
      | some entries => subtree_directories_list entries
/-- The number of directories among the listed entries and below them. -/
def subtree_directories_list : List Entry → Nat
  | [] => 0
  | e :: rest =>
    (if e.type = file_type.directory_file then 1 else 0) + e.subtree_directories
      + subtree_directories_list rest
end

/-- The immediate regular-file children among the listed entries, in listing
order. -/
def immediate_files (entries : List Entry) : List Entry :=
  entries.filter (fun e => decide (e.type = file_type.regular_file))

/-- The immediate subdirectories among the listed entries, in listing order. -/
def immediate_directories (entries : List Entry) : List Entry :=
  entries.filter (fun e => decide (e.type = file_type.directory_file))

/-- The sum of the sizes of the immediate regular-file children. -/
def immediate_bytes (entries : List Entry) : Nat :=
  ((immediate_files entries).map (fun e => e.size.getD 0)).sum

/-- The running maximum of lines 125 to 128 over a list of files: a file
replaces the pair only when its size is strictly greater. -/
def fold_maximum (start : Nat × String) (fs : List Entry) : Nat × String :=
  fs.foldl (fun m f => if f.size.getD 0 > m.1 then (f.size.getD 0, f.path) else m) start

/-- The running minimum of lines 129 to 132 over a list of files: a file
replaces the pair only when its size is strictly smaller. -/
def fold_minimum (start : Nat × String) (fs : List Entry) : Nat × String :=
  fs.foldl (fun m f => if f.size.getD 0 < m.1 then (f.size.getD 0, f.path) else m) start

/-! ## Relations between a tree and what `traversal` computes on it -/

/-- The relation between an entry and the result `traversal` returns for it:
every counter is the reference quantity modulo `2 ^ 64`. -/
structure Stats (e : Entry) (r : result) : Prop where
  type_eq : r.type = e.type
  recursive_total_size_eq : r.recursive_total_size = e.subtree_bytes % SIZE_MODULUS
  recursive_file_count_eq : r.recursive_file_count = e.subtree_files % SIZE_MODULUS
  recursive_directory_count_eq :
    r.recursive_directory_count = e.subtree_directories % SIZE_MODULUS
  total_size_eq : r.total_size =
    (if e.type = file_type.regular_file then e.size.getD 0
      else immediate_bytes e.entries) % SIZE_MODULUS
  file_count_eq : r.file_count =
    (if e.type = file_type.regular_file then 1
      else (immediate_files e.entries).length) % SIZE_MODULUS
  directory_count_eq : r.directory_count =
    (if e.type = file_type.regular_file then 0
      else (immediate_directories e.entries).length) % SIZE_MODULUS
  path_eq : e.type = file_type.regular_file → r.path = e.path

/-- The relation between the locals before and after the loop has folded the
listed entries. -/
structure LoopStats (entries : List Entry) (st st' : locals) : Prop where
  type_eq : st'.r.type = st.r.type
  path_eq : st'.r.path = st.r.path
  recursive_total_size_eq : st'.r.recursive_total_size =
    (st.r.recursive_total_size + subtree_bytes_list entries) % SIZE_MODULUS
  recursive_file_count_eq : st'.r.recursive_file_count =
    (st.r.recursive_file_count + subtree_files_list entries) % SIZE_MODULUS
  recursive_directory_count_eq : st'.r.recursive_directory_count =
    (st.r.recursive_directory_count + subtree_directories_list entries) % SIZE_MODULUS
  total_size_eq : st'.r.total_size =
    (st.r.total_size + immediate_bytes entries) % SIZE_MODULUS
  file_count_eq : st'.r.file_count =
    (st.r.file_count + (immediate_files entries).length) % SIZE_MODULUS
  directory_count_eq : st'.r.directory_count =
    (st.r.directory_count + (immediate_directories entries).length) % SIZE_MODULUS
  files_length_eq : st'.files.length = st.files.length + entries.length
  maximum_eq : (st'.maximum_size, st'.maximum_path) =
    fold_maximum (st.maximum_size, st.maximum_path) (immediate_files entries)
  minimum_eq : (st'.minimum_size, st'.minimum_path) =
    fold_minimum (st.minimum_size, st.minimum_path) (immediate_files entries)

/-- Every counter of a result is a `size_t` value. -/
def result.bounded (r : result) : Prop :=
  r.total_size < SIZE_MODULUS ∧ r.recursive_total_size < SIZE_MODULUS ∧
  r.file_count < SIZE_MODULUS ∧ r.recursive_file_count < SIZE_MODULUS ∧
  r.directory_count < SIZE_MODULUS ∧ r.recursive_directory_count < SIZE_MODULUS

/-- Two listed entries agree up to the contents of subdirectories: a regular file
is kept as it is, a directory may be replaced by a directory of any contents. -/
def same_up_to_subdirectory (e e' : Entry) : Prop :=
  (e.type = file_type.regular_file ∧ e' = e) ∨
  (e.type = file_type.directory_file ∧ e'.type = file_type.directory_file)

/-! ## Definitions for the averages, the report tree and the failure cases -/

/-- Division of `size_t` values as C++ defines it: no value on a zero divisor. -/
def size_t_div (a b : Nat) : Option Nat :=
  if b = 0 then none else some (a / b)

/-- The expression of line 140 with the C++ division: `none` would be a
division by zero. -/
def average_size_checked (r : result) : Option Nat :=
  if r.file_count = 0 then some 0 else size_t_div r.total_size r.file_count

/-- The expression of line 141 with the C++ division: `none` would be a
division by zero. -/
def recursive_average_size_checked (r : result) : Option Nat :=
  if r.recursive_file_count = 0 then some 0
  else size_t_div r.recursive_total_size r.recursive_file_count

/-- The object the renderer emits as `Maximum` or `Minimum` (lines 55 to 62). -/
def extremum_member (size : Nat) (path : String) : value :=
  value.kObject [("Size", value.kDouble (convert_bytes_to_kb size)),
    ("Path", value.kString path)]

mutual
/-- The number of directory levels below an entry: 0 for a regular file and for
a directory without entries. -/
def Entry.height : Entry → Nat
  | Entry.mk _ type _ listing =>
    if type = file_type.regular_file then 0
    else
      match listing with
      | none => 0
      | some entries => height_list entries
/-- One more than the largest height among the listed entries, 0 for no entry. -/
def height_list : List Entry → Nat
  | [] => 0
  | e :: rest => max (e.height + 1) (height_list rest)
end

/-- The levels of a report tree: the object has the member `Level` with the
value `n`, and every element of its `Files` array, if it has one, is a report
tree of level `n + 1`. -/
inductive LevelsFrom : Nat → value → Prop where
  | node (n : Nat) (rep : value) :
      rep.FindMember "Level" = some (value.kUint64 n) →
      (∀ xs, rep.FindMember "Files" = some (value.kArray xs) →
        ∀ x, x ∈ xs → LevelsFrom (n + 1) x) →
      LevelsFrom n rep

/-- The object `x` is the report `traversal` fills for the entry `e` at the
level `sub_level`. -/
def is_report_of (sub_level : Nat) (e : Entry) (x : value) : Prop :=
  ∃ sub_r, traversal e sub_level = some (sub_r, x)

mutual
/-- Every query `traversal` makes in the tree succeeds: the size query at each
regular file, the listing at each other entry. -/
def Entry.readable : Entry → Bool
  | Entry.mk _ type size listing =>
    if type = file_type.regular_file then size.isSome
    else
      match listing with
      | none => false
      | some entries => all_readable entries
/-- Every tree of the list satisfies `Entry.readable`. -/
def all_readable : List Entry → Bool
  | [] => true
  | e :: rest => e.readable && all_readable rest
end

/-- The nodes `traversal` visits from a root: the root itself, and the nodes
visited from the entries listed at a root that is not a regular file. -/
inductive in_subtree : Entry → Entry → Prop where
  | root (e : Entry) : in_subtree e e
  | listed (node child : Entry) (p : String) (t : file_type) (s : Option Nat)
      (es : List Entry) :
      t ≠ file_type.regular_file → child ∈ es → in_subtree node child →
      in_subtree node (Entry.mk p t s (some es))

mutual
/-- The answers a filesystem can give: a size fits `uintmax_t`, and
`directory_iterator` throws on every path whose status is not a directory, so
only a directory has a listing. -/
def Entry.consistent : Entry → Bool
  | Entry.mk _ type size listing =>
    (match size with
      | none => true
      | some s => decide (s < SIZE_MODULUS)) &&
    (match listing with
      | none => true
      | some entries => decide (type = file_type.directory_file) && all_consistent entries)
/-- Every tree of the list satisfies `Entry.consistent`. -/
def all_consistent : List Entry → Bool
  | [] => true
  | e :: rest => e.consistent && all_consistent rest
end

/-! ## Example trees -/

/-- A directory that holds only two empty subdirectories. -/
def only_empty_subdirectories : Entry :=
  Entry.dir "d" [Entry.dir "d/s" [], Entry.dir "d/t" []]

/-- The scenario tree: `root/a.txt` (100 bytes) and `root/sub/b.txt` (50 bytes). -/
def scenario : Entry :=
  Entry.dir "root" [Entry.file "root/a.txt" 100, Entry.dir "root/sub" [Entry.file "root/sub/b.txt" 50]]

/-- The scenario tree with other contents in `root/sub`. -/
def scenario_replaced : Entry :=
  Entry.dir "root" [Entry.file "root/a.txt" 100,
    Entry.dir "root/sub" [Entry.file "root/sub/c.txt" 700, Entry.dir "root/sub/t" []]]

/-- A directory that lists a regular file and, below a subdirectory, a regular
file whose size query throws. -/
def unreadable_below : Entry :=
  Entry.dir "d" [Entry.file "d/a" 10,
    Entry.dir "d/s" [Entry.mk "d/s/b" file_type.regular_file none none]]

/-! ## Helper lemmas -/

/-- The loop over no entries leaves the locals as they are. -/
theorem LoopStats.nil (st : locals) (hb : st.r.bounded) : LoopStats [] st st := by
  obtain ⟨h1, h2, h3, h4, h5, h6⟩ := hb
  constructor <;>
    simp [subtree_bytes_list, subtree_files_list, subtree_directories_list, immediate_bytes,
      immediate_files, immediate_directories, fold_maximum, fold_minimum,
      Nat.mod_eq_of_lt, *]

/-- The loop body keeps every counter within `size_t`. -/
theorem loop_body_bounded (st : locals) (sub_r : result) (file : value)
    (hb : st.r.bounded) : (loop_body st sub_r file).r.bounded := by
  obtain ⟨h1, h2, h3, h4, h5, h6⟩ := hb
  have hM : 0 < SIZE_MODULUS := by simp [SIZE_MODULUS]
  unfold loop_body result.bounded
  by_cases hd : sub_r.type = file_type.directory_file
  · simp only [hd, if_true]
    refine ⟨h1, Nat.mod_lt _ hM, h3, Nat.mod_lt _ hM, Nat.mod_lt _ hM, Nat.mod_lt _ hM⟩
  · simp only [hd, if_false]
    split_ifs <;>
      exact ⟨Nat.mod_lt _ hM, Nat.mod_lt _ hM, Nat.mod_lt _ hM, Nat.mod_lt _ hM, h5, h6⟩

/-- A node of a tree of regular files and directories is a regular file with a
size or a directory with a listing. -/
theorem regular_or_directory_cases (p : String) (t : file_type) (s : Option Nat)
    (l : Option (List Entry)) (h : (Entry.mk p t s l).regular_or_directory = true) :
    (t = file_type.regular_file ∧ ∃ n, s = some n ∧ n < SIZE_MODULUS) ∨
    (t = file_type.directory_file ∧ ∃ es, l = some es ∧ all_regular_or_directory es = true) := by
  unfold Entry.regular_or_directory at h
  by_cases ht : t = file_type.regular_file
  · left
    refine ⟨ht, ?_⟩
    cases s with
    | none => simp [ht] at h
    | some n => exact ⟨n, rfl, by simpa [ht] using h⟩
  · right
    by_cases hd : t = file_type.directory_file
    · refine ⟨hd, ?_⟩
      cases l with
      | none => simp [hd] at h
      | some es => exact ⟨es, rfl, by simpa [hd] using h⟩
    · simp [ht, hd] at h

/-- The loop body on a child that `traversal` reports as a directory (lines 115 to
119): the extrema and the local file figures are untouched. -/
theorem loop_body_directory (st : locals) (sub_r : result) (file : value)
    (h : sub_r.type = file_type.directory_file) :
    loop_body st sub_r file =
      { r :=
          { total_size := st.r.total_size
            recursive_total_size :=
              (st.r.recursive_total_size + sub_r.recursive_total_size) % SIZE_MODULUS
            file_count := st.r.file_count
            recursive_file_count :=
              (st.r.recursive_file_count + sub_r.recursive_file_count) % SIZE_MODULUS
            directory_count := (st.r.directory_count + 1) % SIZE_MODULUS
            recursive_directory_count :=
              ((st.r.recursive_directory_count + sub_r.recursive_directory_count)
                % SIZE_MODULUS + 1) % SIZE_MODULUS
            path := st.r.path
            type := st.r.type }
        files := st.files ++ [file]
        maximum_size := st.maximum_size
        maximum_path := st.maximum_path
        minimum_size := st.minimum_size
        minimum_path := st.minimum_path } := by
  simp [loop_body, h]

/-- The loop body on a child that `traversal` does not report as a directory
(lines 121 to 132). -/
theorem loop_body_file (st : locals) (sub_r : result) (file : value)
    (h : ¬ sub_r.type = file_type.directory_file) :
    loop_body st sub_r file =
      { r :=
          { total_size := (st.r.total_size + sub_r.total_size) % SIZE_MODULUS
            recursive_total_size :=
              (st.r.recursive_total_size + sub_r.recursive_total_size) % SIZE_MODULUS
            file_count := (st.r.file_count + 1) % SIZE_MODULUS
            recursive_file_count := (st.r.recursive_file_count + 1) % SIZE_MODULUS
            directory_count := st.r.directory_count
            recursive_directory_count := st.r.recursive_directory_count
            path := st.r.path
            type := st.r.type }
        files := st.files ++ [file]
        maximum_size :=
          if sub_r.total_size > st.maximum_size then sub_r.total_size else st.maximum_size
        maximum_path :=
          if sub_r.total_size > st.maximum_size then sub_r.path else st.maximum_path
        minimum_size :=
          if sub_r.total_size < st.minimum_size then sub_r.total_size else st.minimum_size
        minimum_path :=
          if sub_r.total_size < st.minimum_size then sub_r.path else st.minimum_path } := by
  simp only [loop_body, h, if_false]
  split_ifs <;> rfl

/-- One more entry in front of the listing: the loop relation of the rest extends
to the whole listing. -/
theorem LoopStats.cons (e : Entry) (rest : List Entry) (st st' : locals)
    (sub_r : result) (file : value) (he : e.regular_or_directory = true)
    (hsub : Stats e sub_r) (hst : LoopStats rest (loop_body st sub_r file) st') :
    LoopStats (e :: rest) st st' := by
  obtain ⟨p, t, s, l⟩ := e
  obtain ⟨g1, g2, g3, g4, g5, g6, g7, g8⟩ := hsub
  simp only [Entry.type, Entry.size, Entry.path] at g1 g5 g6 g7 g8
  rcases regular_or_directory_cases p t s l he with ⟨ht, n, hs, hn⟩ | ⟨ht, es, hl, hes⟩
  · subst ht hs
    have hpath : sub_r.path = p := g8 rfl
    have hnd : ¬ sub_r.type = file_type.directory_file := by rw [g1]; decide
    rw [loop_body_file st sub_r file hnd] at hst
    obtain ⟨h1, h2, h3, h4, h5, h6, h7, h8, h9, h10, h11⟩ := hst
    simp only [Entry.subtree_bytes, Entry.subtree_files, Entry.subtree_directories, if_true,
      Option.getD_some] at g2 g3 g4 g5 g6
    rw [Nat.mod_eq_of_lt hn] at g2 g5
    have hfiles : immediate_files (Entry.mk p file_type.regular_file (some n) l :: rest)
        = Entry.mk p file_type.regular_file (some n) l :: immediate_files rest := by
      simp [immediate_files, Entry.type]
    have hdirs : immediate_directories (Entry.mk p file_type.regular_file (some n) l :: rest)
        = immediate_directories rest := by
      simp [immediate_directories, Entry.type]
    simp only [SIZE_MODULUS] at *
    constructor
    · exact h1
    · exact h2
    · rw [h3, g2]
      simp only [subtree_bytes_list, Entry.subtree_bytes, if_true, Option.getD_some, SIZE_MODULUS]
      omega
    · rw [h4]
      simp only [subtree_files_list, Entry.subtree_files, if_true, SIZE_MODULUS]
      omega
    · rw [h5]
      simp [subtree_directories_list, Entry.subtree_directories, Entry.type, SIZE_MODULUS]
    · rw [h6, g5]
      simp only [immediate_bytes, hfiles, List.map_cons, List.sum_cons, Entry.size,
        Option.getD_some, SIZE_MODULUS]
      omega
    · rw [h7, hfiles]
      simp only [List.length_cons, SIZE_MODULUS]
      omega
    · rw [h8, hdirs]
      simp only [SIZE_MODULUS]
    · rw [h9]
      simp only [List.length_append, List.length_cons, List.length_nil]
      omega
    · rw [h10, hfiles, g5, hpath]
      simp only [fold_maximum, List.foldl_cons, Entry.size, Entry.path, Option.getD_some]
      congr 1
      split_ifs <;> rfl
    · rw [h11, hfiles, g5, hpath]
      simp only [fold_minimum, List.foldl_cons, Entry.size, Entry.path, Option.getD_some]
      congr 1
      split_ifs <;> rfl
  · subst ht hl
    rw [loop_body_directory st sub_r file g1] at hst
    obtain ⟨h1, h2, h3, h4, h5, h6, h7, h8, h9, h10, h11⟩ := hst
    have hfiles : immediate_files (Entry.mk p file_type.directory_file s (some es) :: rest)
        = immediate_files rest := by
      simp [immediate_files, Entry.type]
    have hdirs : immediate_directories (Entry.mk p file_type.directory_file s (some es) :: rest)
        = Entry.mk p file_type.directory_file s (some es) :: immediate_directories rest := by
      simp [immediate_directories, Entry.type]
    simp only [SIZE_MODULUS] at *
    constructor
    · exact h1
    · exact h2
    · rw [h3, g2]
      simp only [subtree_bytes_list, SIZE_MODULUS]
      omega
    · rw [h4, g3]
      simp only [subtree_files_list, SIZE_MODULUS]
      omega
    · rw [h5, g4]
      simp only [subtree_directories_list, Entry.type, if_true, SIZE_MODULUS]
      omega
    · rw [h6]
      simp only [immediate_bytes, hfiles, SIZE_MODULUS]
    · rw [h7, hfiles]
      simp only [SIZE_MODULUS]
    · rw [h8, hdirs]
      simp only [List.length_cons, SIZE_MODULUS]
      omega
    · rw [h9]
      simp only [List.length_append, List.length_cons, List.length_nil]
      omega
    · rw [h10, hfiles]
    · rw [h11, hfiles]

/-- The initial counters are zero. -/
theorem init_bounded (t : file_type) : (locals.init t).r.bounded := by
  simp [locals.init, result.bounded, SIZE_MODULUS]

mutual
/-- On a tree of regular files and directories `traversal` returns, and its
result stands in the relation `Stats` to the tree. -/
theorem traversal_stats : ∀ (e : Entry) (level : Nat), e.regular_or_directory = true →
    ∃ r rep, traversal e level = some (r, rep) ∧ Stats e r
  | Entry.mk p t s none, level, h => by
    rcases regular_or_directory_cases p t s none h with ⟨ht, n, hs, hn⟩ | ⟨ht, es, hl, hes⟩
    · subst ht hs
      refine ⟨_, _, by simp [traversal]; rfl, ?_⟩
      constructor <;>
        simp [finish, locals.init, Entry.type, Entry.size, Entry.path, Entry.subtree_bytes,
          Entry.subtree_files, Entry.subtree_directories, Nat.mod_eq_of_lt, hn, SIZE_MODULUS]
    · cases hl
  | Entry.mk p t s (some es), level, h => by
    rcases regular_or_directory_cases p t s (some es) h with ⟨ht, n, hs, hn⟩ | ⟨ht, es', hl, hes⟩
    · subst ht hs
      refine ⟨_, _, by simp [traversal]; rfl, ?_⟩
      constructor <;>
        simp [finish, locals.init, Entry.type, Entry.size, Entry.path, Entry.subtree_bytes,
          Entry.subtree_files, Entry.subtree_directories, Nat.mod_eq_of_lt, hn, SIZE_MODULUS]
    · cases hl
      subst ht
      obtain ⟨st', hrun, hst⟩ := for_loop_stats es ((level + 1) % SIZE_MODULUS)
        (locals.init file_type.directory_file) hes (init_bounded _)
      refine ⟨_, _, by simp [traversal, hrun]; rfl, ?_⟩
      constructor
      · simpa [finish, locals.init, Entry.type] using hst.type_eq
      · simpa [finish, locals.init, Entry.subtree_bytes] using hst.recursive_total_size_eq
      · simpa [finish, locals.init, Entry.subtree_files] using hst.recursive_file_count_eq
      · simpa [finish, locals.init, Entry.subtree_directories]
          using hst.recursive_directory_count_eq
      · simpa [finish, locals.init, Entry.type, Entry.entries] using hst.total_size_eq
      · simpa [finish, locals.init, Entry.type, Entry.entries] using hst.file_count_eq
      · simpa [finish, locals.init, Entry.type, Entry.entries] using hst.directory_count_eq
      · simp [Entry.type]
/-- On a listing of regular files and directories the loop runs to its end, and
the final locals stand in the relation `LoopStats` to the listing. -/
theorem for_loop_stats : ∀ (es : List Entry) (level : Nat) (st : locals),
    all_regular_or_directory es = true → st.r.bounded →
    ∃ st', for_loop es level st = some st' ∧ LoopStats es st st'
  | [], level, st, _, hb => ⟨st, by simp [for_loop], LoopStats.nil st hb⟩
  | e :: rest, level, st, h, hb => by
    have he : e.regular_or_directory = true := by
      simp [all_regular_or_directory] at h; exact h.1
    have hrest : all_regular_or_directory rest = true := by
      simp [all_regular_or_directory] at h; exact h.2
    obtain ⟨sub_r, file, hsub, hstats⟩ := traversal_stats e level he
    obtain ⟨st', hrun, hst⟩ := for_loop_stats rest level (loop_body st sub_r file) hrest
      (loop_body_bounded st sub_r file hb)
    exact ⟨st', by simp [for_loop, hsub, hrun], LoopStats.cons e rest st st' sub_r file he hstats hst⟩
end

/-- A regular file in front of a listing is its first immediate file. -/
theorem immediate_files_cons_regular (e : Entry) (rest : List Entry)
    (h : e.type = file_type.regular_file) :
    immediate_files (e :: rest) = e :: immediate_files rest := by
  simp [immediate_files, h]

/-- An entry that is not a regular file adds nothing to the immediate files. -/
theorem immediate_files_cons_other (e : Entry) (rest : List Entry)
    (h : ¬ e.type = file_type.regular_file) :
    immediate_files (e :: rest) = immediate_files rest := by
  simp [immediate_files, h]

/-- A directory in front of a listing is its first immediate subdirectory. -/
theorem immediate_directories_cons_directory (e : Entry) (rest : List Entry)
    (h : e.type = file_type.directory_file) :
    immediate_directories (e :: rest) = e :: immediate_directories rest := by
  simp [immediate_directories, h]

/-- An entry that is not a directory adds nothing to the immediate subdirectories. -/
theorem immediate_directories_cons_other (e : Entry) (rest : List Entry)
    (h : ¬ e.type = file_type.directory_file) :
    immediate_directories (e :: rest) = immediate_directories rest := by
  simp [immediate_directories, h]

/-- The subtree of a regular file holds the bytes of the file. -/
theorem subtree_bytes_of_regular (e : Entry) (h : e.type = file_type.regular_file) :
    e.subtree_bytes = e.size.getD 0 := by
  obtain ⟨p, t, s, _ | es⟩ := e <;>
    · have ht : t = file_type.regular_file := h
      simp [Entry.subtree_bytes, Entry.size, ht]

/-- The subtree of a regular file holds one file. -/
theorem subtree_files_of_regular (e : Entry) (h : e.type = file_type.regular_file) :
    e.subtree_files = 1 := by
  obtain ⟨p, t, s, _ | es⟩ := e <;>
    · have ht : t = file_type.regular_file := h
      simp [Entry.subtree_files, ht]

/-- The immediate files hold no more bytes than the whole listing with its subtrees. -/
theorem immediate_bytes_le (es : List Entry) :
    immediate_bytes es ≤ subtree_bytes_list es := by
  induction es with
  | nil => simp [immediate_bytes, immediate_files, subtree_bytes_list]
  | cons e rest ih =>
    simp only [immediate_bytes] at ih ⊢
    by_cases ht : e.type = file_type.regular_file
    · rw [immediate_files_cons_regular e rest ht]
      simp only [List.map_cons, List.sum_cons, subtree_bytes_list,
        subtree_bytes_of_regular e ht]
      omega
    · rw [immediate_files_cons_other e rest ht]
      simp only [subtree_bytes_list]
      omega

/-- There are no more immediate files than files in the listing with its subtrees. -/
theorem immediate_files_length_le (es : List Entry) :
    (immediate_files es).length ≤ subtree_files_list es := by
  induction es with
  | nil => simp [immediate_files, subtree_files_list]
  | cons e rest ih =>
    by_cases ht : e.type = file_type.regular_file
    · rw [immediate_files_cons_regular e rest ht]
      simp only [List.length_cons, subtree_files_list, subtree_files_of_regular e ht]
      omega
    · rw [immediate_files_cons_other e rest ht]
      simp only [subtree_files_list]
      omega

/-- There are no more immediate subdirectories than directories in the listing
with its subtrees. -/
theorem immediate_directories_length_le (es : List Entry) :
    (immediate_directories es).length ≤ subtree_directories_list es := by
  induction es with
  | nil => simp [immediate_directories, subtree_directories_list]
  | cons e rest ih =>
    by_cases ht : e.type = file_type.directory_file
    · rw [immediate_directories_cons_directory e rest ht]
      simp only [List.length_cons, subtree_directories_list, ht, if_true]
      omega
    · rw [immediate_directories_cons_other e rest ht]
      simp only [subtree_directories_list]
      omega

/-- Replacing subdirectories keeps the immediate files. -/
theorem immediate_files_of_same_up_to_subdirectory (es es' : List Entry)
    (h : List.Forall₂ same_up_to_subdirectory es es') :
    immediate_files es' = immediate_files es := by
  induction h with
  | nil => rfl
  | cons hhead _ ih =>
    rcases hhead with ⟨ht, heq⟩ | ⟨ht, ht'⟩
    · subst heq
      rw [immediate_files_cons_regular _ _ ht, immediate_files_cons_regular _ _ ht, ih]
    · have hn : ∀ x : Entry, x.type = file_type.directory_file →
          ¬ x.type = file_type.regular_file := by
        intro x hx; rw [hx]; decide
      rw [immediate_files_cons_other _ _ (hn _ ht),
        immediate_files_cons_other _ _ (hn _ ht'), ih]

/-- A directory of a tree of regular files and directories: the loop runs to its
end, and `traversal` returns what `finish` makes of the final locals. -/
theorem traversal_directory (p : String) (s : Option Nat) (es : List Entry) (level : Nat)
    (hwf : (Entry.mk p file_type.directory_file s (some es)).regular_or_directory = true) :
    ∃ st', LoopStats es (locals.init file_type.directory_file) st' ∧
      traversal (Entry.mk p file_type.directory_file s (some es)) level
        = some (finish p level st') := by
  have hes : all_regular_or_directory es = true := by
    rcases regular_or_directory_cases _ _ _ _ hwf with ⟨ht, _⟩ | ⟨_, es', hl, hes'⟩
    · cases ht
    · cases hl; exact hes'
  obtain ⟨st', hrun, hst⟩ := for_loop_stats es ((level + 1) % SIZE_MODULUS)
    (locals.init file_type.directory_file) hes (init_bounded _)
  exact ⟨st', hst, by simp [traversal, hrun]⟩

/-- The status of a node of a tree of regular files and directories. -/
theorem type_of_regular_or_directory (e : Entry) (hwf : e.regular_or_directory = true) :
    e.type = file_type.regular_file ∨ e.type = file_type.directory_file := by
  obtain ⟨p, t, s, l⟩ := e
  rcases regular_or_directory_cases _ _ _ _ hwf with ⟨h, _⟩ | ⟨h, _⟩
  · exact Or.inl h
  · exact Or.inr h

/-- A regular file whose size query succeeds: `traversal` fills the result from
the size and hands the initial extrema and the empty array to the renderer. -/
theorem traversal_regular (p : String) (S : Nat) (l : Option (List Entry)) (level : Nat) :
    traversal (Entry.mk p file_type.regular_file (some S) l) level
      = some (finish p level
          { r := { total_size := S % SIZE_MODULUS
                   recursive_total_size := S % SIZE_MODULUS
                   file_count := 1
                   recursive_file_count := 1
                   directory_count := 0
                   recursive_directory_count := 0
                   path := p
                   type := file_type.regular_file }
            files := []
            maximum_size := SIZE_MIN
            maximum_path := unknown_path
            minimum_size := SIZE_MAX
            minimum_path := unknown_path }) := by
  cases l <;> simp [traversal, locals.init]

/-- A directory of a tree of regular files and directories has a listing. -/
theorem entry_eq_of_directory (e : Entry) (hd : e.type = file_type.directory_file)
    (hwf : e.regular_or_directory = true) :
    ∃ p s, e = Entry.mk p file_type.directory_file s (some e.entries) := by
  obtain ⟨p, t, s, l⟩ := e
  simp only [Entry.type] at hd
  subst hd
  rcases regular_or_directory_cases _ _ _ _ hwf with ⟨ht, _⟩ | ⟨_, es', hl, _⟩
  · cases ht
  · subst hl
    exact ⟨p, s, rfl⟩

/-- The bytes below a directory are those of its listing. -/
theorem subtree_bytes_of_directory (p : String) (s : Option Nat) (es : List Entry) :
    (Entry.mk p file_type.directory_file s (some es)).subtree_bytes
      = subtree_bytes_list es := by
  simp [Entry.subtree_bytes]

/-- The files below a directory are those of its listing. -/
theorem subtree_files_of_directory (p : String) (s : Option Nat) (es : List Entry) :
    (Entry.mk p file_type.directory_file s (some es)).subtree_files
      = subtree_files_list es := by
  simp [Entry.subtree_files]

/-- The directories below a directory are those of its listing. -/
theorem subtree_directories_of_directory (p : String) (s : Option Nat) (es : List Entry) :
    (Entry.mk p file_type.directory_file s (some es)).subtree_directories
      = subtree_directories_list es := by
  simp [Entry.subtree_directories]

/-- The members `Files`, `Maximum` and `Minimum` of the object that
`set_value_with_attributes` fills: present exactly for a directory whose array
`files` is not empty. -/
theorem set_value_with_attributes_members (path : String) (type : file_type)
    (level total_size recursive_total_size : Nat) (average recursive_average : ℚ)
    (file_count recursive_file_count directory_count recursive_directory_count : Nat)
    (files : List value) (maximum_size : Nat) (maximum_path : String)
    (minimum_size : Nat) (minimum_path : String) :
    let rep := set_value_with_attributes (value.kObject []) path type level total_size
      recursive_total_size average recursive_average file_count recursive_file_count
      directory_count recursive_directory_count files maximum_size maximum_path
      minimum_size minimum_path
    rep.FindMember "Files" =
      (if type = file_type.directory_file ∧ files.length > 0
        then some (value.kArray files) else none) ∧
    rep.FindMember "Maximum" =
      (if type = file_type.directory_file ∧ files.length > 0
        then some (value.kObject [("Size", value.kDouble (convert_bytes_to_kb maximum_size)),
          ("Path", value.kString maximum_path)]) else none) ∧
    rep.FindMember "Minimum" =
      (if type = file_type.directory_file ∧ files.length > 0
        then some (value.kObject [("Size", value.kDouble (convert_bytes_to_kb minimum_size)),
          ("Path", value.kString minimum_path)]) else none) := by
  intro rep
  by_cases ht : type = file_type.directory_file
  · by_cases hf : files.length > 0
    · simp [rep, set_value_with_attributes, value.AddMember, value.FindMember, ht, hf]
    · simp [rep, set_value_with_attributes, value.AddMember, value.FindMember, ht, hf]
  · simp [rep, set_value_with_attributes, value.AddMember, value.FindMember, ht]

/-- A failing entry makes the loop fail, wherever it stands in the listing. -/
theorem for_loop_fails_of_entry (before after : List Entry) (e : Entry) (sub_level : Nat)
    (he : traversal e sub_level = none) :
    ∀ st : locals, for_loop (before ++ e :: after) sub_level st = none := by
  induction before with
  | nil => intro st; simp [for_loop, he]
  | cons b rest ih =>
    intro st
    cases hb : traversal b sub_level with
    | none => simp [for_loop, hb]
    | some x => obtain ⟨sub_r, file⟩ := x; simp [for_loop, hb, ih]

/-- An entry that is not a regular file and whose listing throws has no result. -/
theorem traversal_fails_of_listing (p : String) (t : file_type) (s : Option Nat)
    (level : Nat) (ht : t ≠ file_type.regular_file) :
    traversal (Entry.mk p t s none) level = none := by
  simp [traversal, ht]

/-! ## The claims -/

/-- C1: for every finite tree of regular files and directories whose total fits
64 bits, `traversal` returns a result whose `recursive_total_size` is the sum of
the byte sizes of all regular files of the subtree, at any depth; for a regular
file it is the file's own size. -/
theorem recursive_total_size_eq_subtree_bytes (e : Entry) (level : Nat)
    (hwf : e.regular_or_directory = true) (hfit : e.subtree_bytes < SIZE_MODULUS) :
    ∃ r rep, traversal e level = some (r, rep) ∧
      r.recursive_total_size = e.subtree_bytes ∧
      (e.type = file_type.regular_file → e.size = some r.recursive_total_size) := by
  obtain ⟨r, rep, hrun, hst⟩ := traversal_stats e level hwf
  refine ⟨r, rep, hrun, ?_, ?_⟩
  · rw [hst.recursive_total_size_eq, Nat.mod_eq_of_lt hfit]
  · intro ht
    rw [hst.recursive_total_size_eq, Nat.mod_eq_of_lt hfit]
    obtain ⟨p, t, s, l⟩ := e
    simp only [Entry.type] at ht
    subst ht
    rcases regular_or_directory_cases _ _ _ _ hwf with ⟨_, n, hs, _⟩ | ⟨ht, _⟩
    · subst hs
      simp [Entry.size, Entry.subtree_bytes]
    · cases ht

/-- The theorem of C1 on the tree `d/a` (10 bytes), `d/s/b` (20 bytes). -/
theorem recursive_total_size_eq_subtree_bytes_witness :
    ∃ r rep,
      traversal (Entry.dir "d" [Entry.file "d/a" 10, Entry.dir "d/s" [Entry.file "d/s/b" 20]]) 0
        = some (r, rep) ∧
      r.recursive_total_size
        = (Entry.dir "d" [Entry.file "d/a" 10,
            Entry.dir "d/s" [Entry.file "d/s/b" 20]]).subtree_bytes ∧
      ((Entry.dir "d" [Entry.file "d/a" 10, Entry.dir "d/s" [Entry.file "d/s/b" 20]]).type
          = file_type.regular_file →
        (Entry.dir "d" [Entry.file "d/a" 10, Entry.dir "d/s" [Entry.file "d/s/b" 20]]).size
          = some r.recursive_total_size) :=
  recursive_total_size_eq_subtree_bytes
    (Entry.dir "d" [Entry.file "d/a" 10, Entry.dir "d/s" [Entry.file "d/s/b" 20]]) 0
    (by decide) (by decide)

/-- C2: for every directory of a tree of regular files and directories (local
figures fitting 64 bits), `total_size` is the sum of the sizes of the immediate
regular-file children and `file_count` is their number; replacing the contents of
any subdirectory leaves both unchanged. -/
theorem local_figures_reflect_direct_files (e e' : Entry) (level level' : Nat)
    (hd : e.type = file_type.directory_file) (hd' : e'.type = file_type.directory_file)
    (hwf : e.regular_or_directory = true) (hwf' : e'.regular_or_directory = true)
    (hrep : List.Forall₂ same_up_to_subdirectory e.entries e'.entries)
    (hsize : immediate_bytes e.entries < SIZE_MODULUS)
    (hcount : (immediate_files e.entries).length < SIZE_MODULUS) :
    ∃ r rep r' rep', traversal e level = some (r, rep) ∧
      traversal e' level' = some (r', rep') ∧
      r.total_size = immediate_bytes e.entries ∧
      r.file_count = (immediate_files e.entries).length ∧
      r'.total_size = r.total_size ∧ r'.file_count = r.file_count := by
  obtain ⟨r, rep, hrun, hst⟩ := traversal_stats e level hwf
  obtain ⟨r', rep', hrun', hst'⟩ := traversal_stats e' level' hwf'
  have hne : ¬ e.type = file_type.regular_file := by rw [hd]; decide
  have hne' : ¬ e'.type = file_type.regular_file := by rw [hd']; decide
  have hfiles := immediate_files_of_same_up_to_subdirectory _ _ hrep
  have h1 : r.total_size = immediate_bytes e.entries := by
    rw [hst.total_size_eq, if_neg hne, Nat.mod_eq_of_lt hsize]
  have h2 : r.file_count = (immediate_files e.entries).length := by
    rw [hst.file_count_eq, if_neg hne, Nat.mod_eq_of_lt hcount]
  refine ⟨r, rep, r', rep', hrun, hrun', h1, h2, ?_, ?_⟩
  · rw [hst'.total_size_eq, if_neg hne', h1]
    simp only [immediate_bytes, hfiles]
    exact Nat.mod_eq_of_lt hsize
  · rw [hst'.file_count_eq, if_neg hne', h2, hfiles]
    exact Nat.mod_eq_of_lt hcount

/-- The theorem of C2 on `d/a` (10 bytes) next to the subdirectory `d/s`, whose
contents are replaced. -/
theorem local_figures_reflect_direct_files_witness :
    ∃ r rep r' rep',
      traversal (Entry.dir "d" [Entry.file "d/a" 10, Entry.dir "d/s" [Entry.file "d/s/b" 20]]) 0
        = some (r, rep) ∧
      traversal (Entry.dir "d" [Entry.file "d/a" 10,
        Entry.dir "d/s" [Entry.file "d/s/c" 7, Entry.dir "d/s/t" []]]) 0 = some (r', rep') ∧
      r.total_size = immediate_bytes
        (Entry.dir "d" [Entry.file "d/a" 10, Entry.dir "d/s" [Entry.file "d/s/b" 20]]).entries ∧
      r.file_count = (immediate_files
        (Entry.dir "d" [Entry.file "d/a" 10,
          Entry.dir "d/s" [Entry.file "d/s/b" 20]]).entries).length ∧
      r'.total_size = r.total_size ∧ r'.file_count = r.file_count :=
  local_figures_reflect_direct_files
    (Entry.dir "d" [Entry.file "d/a" 10, Entry.dir "d/s" [Entry.file "d/s/b" 20]])
    (Entry.dir "d" [Entry.file "d/a" 10,
      Entry.dir "d/s" [Entry.file "d/s/c" 7, Entry.dir "d/s/t" []]])
    0 0 rfl rfl (by decide) (by decide)
    (List.Forall₂.cons (Or.inl ⟨rfl, rfl⟩)
      (List.Forall₂.cons (Or.inr ⟨rfl, rfl⟩) List.Forall₂.nil))
    (by decide) (by decide)

/-- C3: for every directory of a tree of regular files and directories (counts
fitting 64 bits), `recursive_file_count` is the number of regular files anywhere
in the subtree, `recursive_directory_count` the number of directories strictly
below it at any depth, and `directory_count` the number of its immediate
subdirectories. -/
theorem counts_eq_subtree_counts (e : Entry) (level : Nat)
    (hd : e.type = file_type.directory_file) (hwf : e.regular_or_directory = true)
    (hfiles : e.subtree_files < SIZE_MODULUS)
    (hdirs : e.subtree_directories < SIZE_MODULUS) :
    ∃ r rep, traversal e level = some (r, rep) ∧
      r.recursive_file_count = e.subtree_files ∧
      r.recursive_directory_count = e.subtree_directories ∧
      r.directory_count = (immediate_directories e.entries).length := by
  obtain ⟨r, rep, hrun, hst⟩ := traversal_stats e level hwf
  have hne : ¬ e.type = file_type.regular_file := by rw [hd]; decide
  have hle : (immediate_directories e.entries).length ≤ e.subtree_directories := by
    obtain ⟨p, s, he⟩ := entry_eq_of_directory e hd hwf
    have h := immediate_directories_length_le e.entries
    rw [he]
    simpa [Entry.subtree_directories, Entry.entries] using h
  refine ⟨r, rep, hrun, ?_, ?_, ?_⟩
  · rw [hst.recursive_file_count_eq, Nat.mod_eq_of_lt hfiles]
  · rw [hst.recursive_directory_count_eq, Nat.mod_eq_of_lt hdirs]
  · rw [hst.directory_count_eq, if_neg hne]
    exact Nat.mod_eq_of_lt (lt_of_le_of_lt hle hdirs)

/-- The theorem of C3 on a directory with a file, a subdirectory and an empty
directory below that. -/
theorem counts_eq_subtree_counts_witness :
    ∃ r rep,
      traversal (Entry.dir "d" [Entry.file "d/a" 10,
        Entry.dir "d/s" [Entry.file "d/s/b" 20, Entry.dir "d/s/t" []]]) 0 = some (r, rep) ∧
      r.recursive_file_count = (Entry.dir "d" [Entry.file "d/a" 10,
        Entry.dir "d/s" [Entry.file "d/s/b" 20, Entry.dir "d/s/t" []]]).subtree_files ∧
      r.recursive_directory_count = (Entry.dir "d" [Entry.file "d/a" 10,
        Entry.dir "d/s" [Entry.file "d/s/b" 20, Entry.dir "d/s/t" []]]).subtree_directories ∧
      r.directory_count = (immediate_directories (Entry.dir "d" [Entry.file "d/a" 10,
        Entry.dir "d/s" [Entry.file "d/s/b" 20, Entry.dir "d/s/t" []]]).entries).length :=
  counts_eq_subtree_counts
    (Entry.dir "d" [Entry.file "d/a" 10,
      Entry.dir "d/s" [Entry.file "d/s/b" 20, Entry.dir "d/s/t" []]])
    0 rfl (by decide) (by decide) (by decide)

/-- C4: for every node of a tree of regular files and directories without 64-bit
overflow, the result of `traversal` has `recursive_total_size >= total_size`,
`recursive_file_count >= file_count` and
`recursive_directory_count >= directory_count`; for a regular file
`recursive_total_size = total_size`. -/
theorem recursive_figures_dominate_local (e : Entry) (level : Nat)
    (hwf : e.regular_or_directory = true)
    (hbytes : e.subtree_bytes < SIZE_MODULUS)
    (hfiles : e.subtree_files < SIZE_MODULUS)
    (hdirs : e.subtree_directories < SIZE_MODULUS) :
    ∃ r rep, traversal e level = some (r, rep) ∧
      r.recursive_total_size ≥ r.total_size ∧
      r.recursive_file_count ≥ r.file_count ∧
      r.recursive_directory_count ≥ r.directory_count ∧
      (e.type = file_type.regular_file → r.recursive_total_size = r.total_size) := by
  obtain ⟨r, rep, hrun, hst⟩ := traversal_stats e level hwf
  refine ⟨r, rep, hrun, ?_⟩
  rw [hst.recursive_total_size_eq, hst.recursive_file_count_eq,
    hst.recursive_directory_count_eq, hst.total_size_eq, hst.file_count_eq,
    hst.directory_count_eq, Nat.mod_eq_of_lt hbytes, Nat.mod_eq_of_lt hfiles,
    Nat.mod_eq_of_lt hdirs]
  by_cases ht : e.type = file_type.regular_file
  · simp only [ht, if_true]
    rw [← subtree_bytes_of_regular e ht, subtree_files_of_regular e ht,
      Nat.mod_eq_of_lt hbytes]
    refine ⟨le_refl _, Nat.mod_le _ _, ?_, fun _ => rfl⟩
    simp
  · simp only [ht, if_false]
    have hd : e.type = file_type.directory_file :=
      (type_of_regular_or_directory e hwf).resolve_left ht
    obtain ⟨p, s, he⟩ := entry_eq_of_directory e hd hwf
    have h1 := immediate_bytes_le e.entries
    have h2 := immediate_files_length_le e.entries
    have h3 := immediate_directories_length_le e.entries
    have e1 : e.subtree_bytes = subtree_bytes_list e.entries := by
      rw [he]; simp [Entry.subtree_bytes, Entry.entries]
    have e2 : e.subtree_files = subtree_files_list e.entries := by
      rw [he]; simp [Entry.subtree_files, Entry.entries]
    have e3 : e.subtree_directories = subtree_directories_list e.entries := by
      rw [he]; simp [Entry.subtree_directories, Entry.entries]
    rw [e1, e2, e3]
    refine ⟨le_trans (Nat.mod_le _ _) h1, le_trans (Nat.mod_le _ _) h2,
      le_trans (Nat.mod_le _ _) h3, fun h => h.elim⟩

/-- The theorem of C4 on a directory with a file, a subdirectory and an empty
directory below that. -/
theorem recursive_figures_dominate_local_witness :
    ∃ r rep,
      traversal (Entry.dir "d" [Entry.file "d/a" 10,
        Entry.dir "d/s" [Entry.file "d/s/b" 20, Entry.dir "d/s/t" []]]) 0 = some (r, rep) ∧
      r.recursive_total_size ≥ r.total_size ∧
      r.recursive_file_count ≥ r.file_count ∧
      r.recursive_directory_count ≥ r.directory_count ∧
      ((Entry.dir "d" [Entry.file "d/a" 10,
          Entry.dir "d/s" [Entry.file "d/s/b" 20, Entry.dir "d/s/t" []]]).type
        = file_type.regular_file → r.recursive_total_size = r.total_size) :=
  recursive_figures_dominate_local
    (Entry.dir "d" [Entry.file "d/a" 10,
      Entry.dir "d/s" [Entry.file "d/s/b" 20, Entry.dir "d/s/t" []]])
    0 (by decide) (by decide) (by decide) (by decide)

/-- C5: leaf property.  For every regular file of size `S` bytes, `traversal`
yields `total_size = recursive_total_size = S`,
`file_count = recursive_file_count = 1`,
`directory_count = recursive_directory_count = 0`, and a report without `Files`,
`Maximum` or `Minimum` member. -/
theorem leaf_property (p : String) (S : Nat) (l : Option (List Entry)) (level : Nat)
    (hS : S < SIZE_MODULUS) :
    ∃ r rep, traversal (Entry.mk p file_type.regular_file (some S) l) level = some (r, rep) ∧
      r.total_size = S ∧ r.recursive_total_size = S ∧
      r.file_count = 1 ∧ r.recursive_file_count = 1 ∧
      r.directory_count = 0 ∧ r.recursive_directory_count = 0 ∧
      rep.FindMember "Files" = none ∧ rep.FindMember "Maximum" = none ∧
      rep.FindMember "Minimum" = none := by
  refine ⟨_, _, traversal_regular p S l level, ?_⟩
  simp [finish, set_value_with_attributes, value.AddMember, value.FindMember,
    Nat.mod_eq_of_lt hS]

/-- The theorem of C5 on the file `a.txt` of 100 bytes. -/
theorem leaf_property_witness :
    ∃ r rep, traversal (Entry.mk "a.txt" file_type.regular_file (some 100) none) 0
        = some (r, rep) ∧
      r.total_size = 100 ∧ r.recursive_total_size = 100 ∧
      r.file_count = 1 ∧ r.recursive_file_count = 1 ∧
      r.directory_count = 0 ∧ r.recursive_directory_count = 0 ∧
      rep.FindMember "Files" = none ∧ rep.FindMember "Maximum" = none ∧
      rep.FindMember "Minimum" = none :=
  leaf_property "a.txt" 100 none 0 (by decide)

/-- C6, evaluated at a directory whose only entry is an empty regular file: the
counters are those of the claim, the reported `Minimum` is the file, and the
reported `Maximum` has size 0 and the path `[unknown]`, not the path of the
file. -/
theorem maximum_of_single_empty_file :
    (traversal (Entry.dir "d" [Entry.file "d/empty" 0]) 0).map
        (fun x => (x.1.total_size, x.1.file_count, x.2.FindMember "Maximum",
          x.2.FindMember "Minimum"))
      = some (0, 1,
          some (value.kObject [("Size", value.kDouble 0), ("Path", value.kString "[unknown]")]),
          some (value.kObject [("Size", value.kDouble 0), ("Path", value.kString "d/empty")])) := by
  simp [traversal, for_loop, Entry.dir, Entry.file, finish, loop_body, locals.init,
    set_value_with_attributes, value.AddMember, value.FindMember, SIZE_MIN, SIZE_MAX,
    SIZE_MODULUS, unknown_path, convert_bytes_to_kb]

/-- C7 fails on a directory that holds one empty subdirectory: its
`recursive_file_count` is 0 and its report has a `Maximum` and a `Minimum`
member, the `Maximum` being the initial size 0 with the path `[unknown]`. -/
theorem extrema_emitted_without_descendant_file :
    (traversal (Entry.dir "d" [Entry.dir "d/s" []]) 0).map
        (fun x => (x.1.recursive_file_count, x.2.HasMember "Minimum",
          x.2.FindMember "Maximum"))
      = some (0, true,
          some (value.kObject [("Size", value.kDouble 0),
            ("Path", value.kString "[unknown]")])) := by
  simp [traversal, for_loop, Entry.dir, finish, loop_body, locals.init,
    set_value_with_attributes, value.AddMember, value.FindMember, value.HasMember, SIZE_MIN,
    SIZE_MAX, SIZE_MODULUS, unknown_path, convert_bytes_to_kb]

/-- C7 as amended: for every directory of a tree of regular files and
directories, the report has the members `Maximum` and `Minimum` exactly when the
directory lists at least one entry, of any kind; the report of a directory
without entries has neither. -/
theorem extrema_present_iff_listing_nonempty (p : String) (s : Option Nat)
    (es : List Entry) (level : Nat)
    (hwf : (Entry.mk p file_type.directory_file s (some es)).regular_or_directory = true) :
    ∃ r rep, traversal (Entry.mk p file_type.directory_file s (some es)) level
        = some (r, rep) ∧
      (rep.HasMember "Maximum" = true ↔ es ≠ []) ∧
      (rep.HasMember "Minimum" = true ↔ es ≠ []) := by
  obtain ⟨st', hst, hrun⟩ := traversal_directory p s es level hwf
  refine ⟨_, _, hrun, ?_⟩
  have hlen : st'.files.length = es.length := by
    simpa [locals.init] using hst.files_length_eq
  have htype : st'.r.type = file_type.directory_file := by
    simpa [locals.init] using hst.type_eq
  have hm := set_value_with_attributes_members p st'.r.type level st'.r.total_size
    st'.r.recursive_total_size ((average_size st'.r : Nat) : ℚ)
    ((recursive_average_size st'.r : Nat) : ℚ) st'.r.file_count st'.r.recursive_file_count
    st'.r.directory_count st'.r.recursive_directory_count st'.files st'.maximum_size
    st'.maximum_path st'.minimum_size st'.minimum_path
  simp only [finish, value.HasMember]
  rw [hm.2.1, hm.2.2, htype, hlen]
  cases es with
  | nil => simp
  | cons e rest => simp

/-- The amended C7 on a directory that holds one empty subdirectory. -/
theorem extrema_present_iff_listing_nonempty_witness :
    ∃ r rep, traversal (Entry.mk "d" file_type.directory_file none
        (some [Entry.dir "d/s" []])) 0 = some (r, rep) ∧
      (rep.HasMember "Maximum" = true ↔ [Entry.dir "d/s" []] ≠ []) ∧
      (rep.HasMember "Minimum" = true ↔ [Entry.dir "d/s" []] ≠ []) :=
  extrema_present_iff_listing_nonempty "d" none [Entry.dir "d/s" []] 0 (by decide)

/-- C8: `traversal` of a directory without entries yields
`total_size = recursive_total_size = 0`, all four counts 0, both averages 0, and
a report of type `Directory` without `Files`, `Maximum` or `Minimum` member. -/
theorem empty_directory (p : String) (s : Option Nat) (level : Nat) :
    ∃ r rep, traversal (Entry.mk p file_type.directory_file s (some [])) level
        = some (r, rep) ∧
      r.total_size = 0 ∧ r.recursive_total_size = 0 ∧
      r.file_count = 0 ∧ r.recursive_file_count = 0 ∧
      r.directory_count = 0 ∧ r.recursive_directory_count = 0 ∧
      average_size r = 0 ∧ recursive_average_size r = 0 ∧
      rep.FindMember "Average size" = some (value.kDouble 0) ∧
      rep.FindMember "Recursive average size" = some (value.kDouble 0) ∧
      rep.FindMember "Type" = some (value.kString "Directory") ∧
      rep.FindMember "Files" = none ∧ rep.FindMember "Maximum" = none ∧
      rep.FindMember "Minimum" = none := by
  refine ⟨_, _, by simp [traversal, for_loop]; rfl, ?_⟩
  simp [finish, locals.init, average_size, recursive_average_size,
    set_value_with_attributes, value.AddMember, value.FindMember, convert_bytes_to_kb]

/-- C9 fails on a broken link: `traversal` of an entry of status
`file_not_found` returns no report, and neither does `traversal` of the directory
that lists it next to a regular file. -/
theorem broken_link_aborts_traversal :
    traversal (Entry.mk "d/x" file_type.file_not_found none none) 1 = none ∧
    traversal (Entry.dir "d"
      [Entry.file "d/a" 10, Entry.mk "d/x" file_type.file_not_found none none]) 0 = none := by
  constructor <;>
    simp [traversal, for_loop, Entry.dir, Entry.file]

/-- C9 as amended: an entry whose status is neither regular file nor directory is
taken through the directory branch; its listing throws (it is not a directory),
so `traversal` returns no report for it, and `traversal` of every enclosing
directory that lists it returns no report either. -/
theorem unresolvable_entry_fails (p : String) (t : file_type) (s : Option Nat)
    (level : Nat) (hr : t ≠ file_type.regular_file) (_hd : t ≠ file_type.directory_file) :
    traversal (Entry.mk p t s none) level = none ∧
    ∀ (q : String) (sq : Option Nat) (before after : List Entry) (lvl : Nat),
      traversal (Entry.mk q file_type.directory_file sq
        (some (before ++ Entry.mk p t s none :: after))) lvl = none := by
  refine ⟨traversal_fails_of_listing p t s level hr, ?_⟩
  intro q sq before after lvl
  have h := for_loop_fails_of_entry before after (Entry.mk p t s none)
    ((lvl + 1) % SIZE_MODULUS) (traversal_fails_of_listing p t s _ hr)
    (locals.init file_type.directory_file)
  simp [traversal, h]

/-- The amended C9 on a broken link. -/
theorem unresolvable_entry_fails_witness :
    traversal (Entry.mk "d/x" file_type.file_not_found none none) 1 = none ∧
    ∀ (q : String) (sq : Option Nat) (before after : List Entry) (lvl : Nat),
      traversal (Entry.mk q file_type.directory_file sq
        (some (before ++ Entry.mk "d/x" file_type.file_not_found none none :: after))) lvl
        = none :=
  unresolvable_entry_fails "d/x" file_type.file_not_found none 1 (by decide) (by decide)

/-- C10, evaluated at 1024 bytes: `convert_bytes_to_kb` divides by `2 << 10`,
which is 2048, so 1024 bytes are emitted as one half and not as 1. -/
theorem convert_bytes_to_kb_of_1024 :
    convert_bytes_to_kb 1024 = 1 / 2 ∧ convert_bytes_to_kb 1024 ≠ 1024 / 1024 := by
  have h : (2 <<< 10 : Nat) = 2048 := by decide
  constructor <;> rw [convert_bytes_to_kb, h] <;> norm_num

/-! ## Helper lemmas on the report and on failure -/

/-- What `traversal` returns is what `finish` makes of some final locals. -/
theorem traversal_eq_finish (e : Entry) (level : Nat) (r : result) (rep : value)
    (h : traversal e level = some (r, rep)) :
    ∃ st : locals, r = st.r ∧ rep = (finish e.path level st).2 := by
  obtain ⟨p, t, s, _ | es⟩ := e
  · by_cases ht : t = file_type.regular_file
    · cases s with
      | none => simp [traversal, ht] at h
      | some n =>
        subst ht
        rw [traversal_regular] at h
        exact ⟨_, (congrArg Prod.fst (Option.some.inj h)).symm,
          (congrArg Prod.snd (Option.some.inj h)).symm⟩
    · simp [traversal, ht] at h
  · by_cases ht : t = file_type.regular_file
    · cases s with
      | none => simp [traversal, ht] at h
      | some n =>
        subst ht
        rw [traversal_regular] at h
        exact ⟨_, (congrArg Prod.fst (Option.some.inj h)).symm,
          (congrArg Prod.snd (Option.some.inj h)).symm⟩
    · cases hrun : for_loop es ((level + 1) % SIZE_MODULUS) (locals.init t) with
      | none => simp [traversal, ht, hrun] at h
      | some st =>
        simp only [traversal, ht, if_false, hrun] at h
        exact ⟨st, (congrArg Prod.fst (Option.some.inj h)).symm,
          (congrArg Prod.snd (Option.some.inj h)).symm⟩

/-- The members `Level`, `Average size` and `Recursive average size` of the
object that `set_value_with_attributes` fills. -/
theorem set_value_with_attributes_scalars (path : String) (type : file_type)
    (level total_size recursive_total_size : Nat) (average recursive_average : ℚ)
    (file_count recursive_file_count directory_count recursive_directory_count : Nat)
    (files : List value) (maximum_size : Nat) (maximum_path : String)
    (minimum_size : Nat) (minimum_path : String) :
    let rep := set_value_with_attributes (value.kObject []) path type level total_size
      recursive_total_size average recursive_average file_count recursive_file_count
      directory_count recursive_directory_count files maximum_size maximum_path
      minimum_size minimum_path
    rep.FindMember "Level" = some (value.kUint64 level) ∧
    rep.FindMember "Average size" = some (value.kDouble (convert_bytes_to_kb average)) ∧
    rep.FindMember "Recursive average size"
      = some (value.kDouble (convert_bytes_to_kb recursive_average)) := by
  intro rep
  by_cases ht : type = file_type.directory_file
  · by_cases hf : files.length > 0
    · simp [rep, set_value_with_attributes, value.AddMember, value.FindMember, ht, hf]
    · simp [rep, set_value_with_attributes, value.AddMember, value.FindMember, ht, hf]
  · simp [rep, set_value_with_attributes, value.AddMember, value.FindMember, ht]

/-- The report `finish` makes is a report tree of its level as soon as the
elements of the array `files` are report trees of the next level. -/
theorem finish_levels (p : String) (level : Nat) (st : locals)
    (h : ∀ x, x ∈ st.files → LevelsFrom (level + 1) x) :
    LevelsFrom level (finish p level st).2 := by
  have hs := set_value_with_attributes_scalars p st.r.type level st.r.total_size
    st.r.recursive_total_size ((average_size st.r : Nat) : ℚ)
    ((recursive_average_size st.r : Nat) : ℚ) st.r.file_count st.r.recursive_file_count
    st.r.directory_count st.r.recursive_directory_count st.files st.maximum_size
    st.maximum_path st.minimum_size st.minimum_path
  have hm := set_value_with_attributes_members p st.r.type level st.r.total_size
    st.r.recursive_total_size ((average_size st.r : Nat) : ℚ)
    ((recursive_average_size st.r : Nat) : ℚ) st.r.file_count st.r.recursive_file_count
    st.r.directory_count st.r.recursive_directory_count st.files st.maximum_size
    st.maximum_path st.minimum_size st.minimum_path
  refine LevelsFrom.node level _ hs.1 ?_
  intro xs hxs x hx
  have hfiles := hm.1
  simp only [finish] at hxs
  rw [hfiles] at hxs
  split_ifs at hxs with hc
  have hxs' : st.files = xs := value.kArray.inj (Option.some.inj hxs)
  exact h x (hxs' ▸ hx)

/-- A run of `traversal` that ends in `finish`, split into result and report. -/
theorem split_finish (e : Entry) (p : String) (level : Nat) (st : locals)
    (h : traversal e level = some (finish p level st)) :
    ∃ r rep, traversal e level = some (r, rep) ∧ r = st.r ∧ rep = (finish p level st).2 :=
  ⟨_, _, h, rfl, rfl⟩

mutual
/-- On a tree of regular files and directories whose levels fit `size_t`, the
report of `traversal` is a report tree of the level handed in. -/
theorem traversal_levels : ∀ (e : Entry) (level : Nat), e.regular_or_directory = true →
    level + e.height < SIZE_MODULUS →
    ∃ r rep, traversal e level = some (r, rep) ∧ LevelsFrom level rep
  | Entry.mk p t s none, level, h, _ => by
    rcases regular_or_directory_cases p t s none h with ⟨ht, n, hs, _⟩ | ⟨_, es, hl, _⟩
    · subst ht hs
      obtain ⟨r, rep, hrun, _, hrep⟩ := split_finish _ _ _ _ (traversal_regular p n none level)
      exact ⟨r, rep, hrun, hrep ▸ finish_levels p level _ (by intro x hx; simp at hx)⟩
    · cases hl
  | Entry.mk p t s (some es), level, h, hfit => by
    rcases regular_or_directory_cases p t s (some es) h with ⟨ht, n, hs, _⟩ | ⟨ht, es', hl, hes⟩
    · subst ht hs
      obtain ⟨r, rep, hrun, _, hrep⟩ :=
        split_finish _ _ _ _ (traversal_regular p n (some es) level)
      exact ⟨r, rep, hrun, hrep ▸ finish_levels p level _ (by intro x hx; simp at hx)⟩
    · cases hl
      subst ht
      have hheight : (Entry.mk p file_type.directory_file s (some es)).height
          = height_list es := by simp [Entry.height]
      rw [hheight] at hfit
      cases es with
      | nil =>
        obtain ⟨r, rep, hrun, _, hrep⟩ := split_finish
          (Entry.mk p file_type.directory_file s (some [])) p level
          (locals.init file_type.directory_file) (by simp [traversal, for_loop])
        exact ⟨r, rep, hrun,
          hrep ▸ finish_levels p level _ (by intro x hx; simp [locals.init] at hx)⟩
      | cons e rest =>
        have hpos : 1 ≤ height_list (e :: rest) := by
          simp only [height_list]; omega
        have hsub : (level + 1) % SIZE_MODULUS = level + 1 :=
          Nat.mod_eq_of_lt (by omega)
        obtain ⟨st', hrun, hfiles⟩ := for_loop_levels (e :: rest) (level + 1)
          (locals.init file_type.directory_file) hes (by omega)
          (by intro x hx; simp [locals.init] at hx)
        obtain ⟨r, rep, hrun', _, hrep⟩ := split_finish
          (Entry.mk p file_type.directory_file s (some (e :: rest))) p level st'
          (by simp [traversal, hsub, hrun])
        exact ⟨r, rep, hrun', hrep ▸ finish_levels p level st' hfiles⟩
/-- The loop over a listing of regular files and directories keeps the elements
of the array `files` report trees of the level of the entries. -/
theorem for_loop_levels : ∀ (es : List Entry) (sub_level : Nat) (st : locals),
    all_regular_or_directory es = true → sub_level + height_list es ≤ SIZE_MODULUS →
    (∀ x, x ∈ st.files → LevelsFrom sub_level x) →
    ∃ st', for_loop es sub_level st = some st' ∧ ∀ x, x ∈ st'.files → LevelsFrom sub_level x
  | [], _, st, _, _, hst => ⟨st, by simp [for_loop], hst⟩
  | e :: rest, sub_level, st, h, hfit, hst => by
    have he : e.regular_or_directory = true := by
      simp [all_regular_or_directory] at h; exact h.1
    have hrest : all_regular_or_directory rest = true := by
      simp [all_regular_or_directory] at h; exact h.2
    simp only [height_list] at hfit
    obtain ⟨sub_r, file, hsub, hfile⟩ := traversal_levels e sub_level he (by omega)
    have hfiles : ∀ x, x ∈ (loop_body st sub_r file).files → LevelsFrom sub_level x := by
      intro x hx
      have hlb : (loop_body st sub_r file).files = st.files ++ [file] := by
        by_cases hd : sub_r.type = file_type.directory_file
        · rw [loop_body_directory st sub_r file hd]
        · rw [loop_body_file st sub_r file hd]
      rw [hlb] at hx
      rcases List.mem_append.mp hx with hx | hx
      · exact hst x hx
      · simp at hx; subst hx; exact hfile
    obtain ⟨st', hrun, hst'⟩ := for_loop_levels rest sub_level (loop_body st sub_r file)
      hrest (by omega) hfiles
    exact ⟨st', by simp [for_loop, hsub, hrun], hst'⟩
end

mutual
/-- Whether `traversal` returns depends on the tree alone, not on the level:
it returns exactly when every query it makes succeeds. -/
theorem traversal_isSome : ∀ (e : Entry) (level : Nat),
    (traversal e level).isSome = e.readable
  | Entry.mk p t s none, level => by
    by_cases ht : t = file_type.regular_file
    · cases s <;> simp [traversal, Entry.readable, ht]
    · simp [traversal, Entry.readable, ht]
  | Entry.mk p t s (some es), level => by
    by_cases ht : t = file_type.regular_file
    · cases s <;> simp [traversal, Entry.readable, ht]
    · have ih := for_loop_isSome es ((level + 1) % SIZE_MODULUS) (locals.init t)
      cases hrun : for_loop es ((level + 1) % SIZE_MODULUS) (locals.init t) with
      | none => rw [hrun] at ih; simp [traversal, Entry.readable, ht, hrun, ← ih]
      | some st => rw [hrun] at ih; simp [traversal, Entry.readable, ht, hrun, ← ih]
/-- The loop runs to its end exactly when every listed tree is readable. -/
theorem for_loop_isSome : ∀ (es : List Entry) (sub_level : Nat) (st : locals),
    (for_loop es sub_level st).isSome = all_readable es
  | [], _, _ => by simp [for_loop, all_readable]
  | e :: rest, sub_level, st => by
    have ih := traversal_isSome e sub_level
    cases hsub : traversal e sub_level with
    | none => rw [hsub] at ih; simp [for_loop, all_readable, hsub, ← ih]
    | some x =>
      rw [hsub] at ih
      obtain ⟨sub_r, file⟩ := x
      simp [for_loop, all_readable, hsub, ← ih,
        for_loop_isSome rest sub_level (loop_body st sub_r file)]
end

/-- Every tree of a readable listing is readable. -/
theorem readable_of_mem (es : List Entry) (h : all_readable es = true) :
    ∀ e, e ∈ es → e.readable = true := by
  induction es with
  | nil => intro e he; simp at he
  | cons a rest ih =>
    simp only [all_readable, Bool.and_eq_true] at h
    intro e he
    rcases List.mem_cons.mp he with rfl | he
    · exact h.1
    · exact ih h.2 e he

/-- Every node visited from a readable root is readable. -/
theorem readable_of_in_subtree (node root : Entry) (hsub : in_subtree node root)
    (h : root.readable = true) : node.readable = true := by
  induction hsub with
  | root => exact h
  | listed child p t s es ht hmem _ ih =>
    apply ih
    have hall : all_readable es = true := by
      simpa [Entry.readable, ht] using h
    exact readable_of_mem es hall child hmem

/-- A node without a result leaves every root it is visited from without one. -/
theorem traversal_fails_of_in_subtree (node root : Entry) (l L : Nat)
    (hsub : in_subtree node root) (hfail : traversal node l = none) :
    traversal root L = none := by
  have hnode : node.readable = false := by
    rw [← traversal_isSome node l, hfail]; rfl
  have hroot : root.readable = false := by
    cases hr : root.readable with
    | false => rfl
    | true => rw [readable_of_in_subtree node root hsub hr] at hnode; cases hnode
  have h := traversal_isSome root L
  rw [hroot] at h
  cases hrun : traversal root L with
  | none => rfl
  | some x => rw [hrun] at h; cases h

/-- Every tree of a consistent listing is consistent. -/
theorem consistent_of_mem (es : List Entry) (h : all_consistent es = true) :
    ∀ e, e ∈ es → e.consistent = true := by
  induction es with
  | nil => intro e he; simp at he
  | cons a rest ih =>
    simp only [all_consistent, Bool.and_eq_true] at h
    intro e he
    rcases List.mem_cons.mp he with rfl | he
    · exact h.1
    · exact ih h.2 e he

/-- Every node visited from a consistent root is consistent. -/
theorem consistent_of_in_subtree (node root : Entry) (hsub : in_subtree node root)
    (h : root.consistent = true) : node.consistent = true := by
  induction hsub with
  | root => exact h
  | listed child p t s es _ hmem _ ih =>
    apply ih
    have hall : all_consistent es = true := by
      simp only [Entry.consistent, Bool.and_eq_true] at h
      exact h.2.2
    exact consistent_of_mem es hall child hmem

mutual
/-- On the answers a filesystem can give, the queries of `traversal` all succeed
exactly on the trees of regular files and directories. -/
theorem readable_eq_regular_or_directory : ∀ (e : Entry), e.consistent = true →
    e.readable = e.regular_or_directory
  | Entry.mk p t s none, h => by
    by_cases ht : t = file_type.regular_file
    · cases s with
      | none => simp [Entry.readable, Entry.regular_or_directory, ht]
      | some n =>
        have hn : n < SIZE_MODULUS := by simpa [Entry.consistent] using h
        simp [Entry.readable, Entry.regular_or_directory, ht, hn]
    · by_cases hd : t = file_type.directory_file <;>
        simp [Entry.readable, Entry.regular_or_directory, ht, hd]
  | Entry.mk p t s (some es), h => by
    by_cases ht : t = file_type.regular_file
    · simp [Entry.consistent, ht] at h
    · have hd : t = file_type.directory_file := by
        simp only [Entry.consistent, Bool.and_eq_true, decide_eq_true_eq] at h
        exact h.2.1
      have hes : all_consistent es = true := by
        simp only [Entry.consistent, Bool.and_eq_true] at h
        exact h.2.2
      have ih := all_readable_eq_regular_or_directory es hes
      subst hd
      simp [Entry.readable, Entry.regular_or_directory, ih]
/-- The list form of `readable_eq_regular_or_directory`. -/
theorem all_readable_eq_regular_or_directory : ∀ (es : List Entry),
    all_consistent es = true → all_readable es = all_regular_or_directory es
  | [], _ => by simp [all_readable, all_regular_or_directory]
  | e :: rest, h => by
    simp only [all_consistent, Bool.and_eq_true] at h
    simp [all_readable, all_regular_or_directory, readable_eq_regular_or_directory e h.1,
      all_readable_eq_regular_or_directory rest h.2]
end

/-- The loop appends to the array `files` the reports of the listed entries, one
for each entry and in listing order. -/
theorem for_loop_files (es : List Entry) (sub_level : Nat) :
    ∀ (st st' : locals), for_loop es sub_level st = some st' →
      ∃ reports, st'.files = st.files ++ reports ∧
        List.Forall₂ (is_report_of sub_level) es reports := by
  induction es with
  | nil =>
    intro st st' h
    simp only [for_loop, Option.some.injEq] at h
    subst h
    exact ⟨[], by simp, List.Forall₂.nil⟩
  | cons e rest ih =>
    intro st st' h
    cases hsub : traversal e sub_level with
    | none => simp [for_loop, hsub] at h
    | some x =>
      obtain ⟨sub_r, file⟩ := x
      simp only [for_loop, hsub] at h
      obtain ⟨reports, hfiles, hall⟩ := ih _ _ h
      have hlb : (loop_body st sub_r file).files = st.files ++ [file] := by
        by_cases hd : sub_r.type = file_type.directory_file
        · rw [loop_body_directory st sub_r file hd]
        · rw [loop_body_file st sub_r file hd]
      refine ⟨file :: reports, ?_, List.Forall₂.cons ⟨sub_r, hsub⟩ hall⟩
      rw [hfiles, hlb]
      simp

/-- In a listing of regular files and directories every entry is an immediate
file or an immediate subdirectory. -/
theorem immediate_lengths (es : List Entry) (h : all_regular_or_directory es = true) :
    (immediate_files es).length + (immediate_directories es).length = es.length := by
  induction es with
  | nil => simp [immediate_files, immediate_directories]
  | cons e rest ih =>
    simp only [all_regular_or_directory, Bool.and_eq_true] at h
    have ih' := ih h.2
    rcases type_of_regular_or_directory e h.1 with ht | ht
    · have hnd : ¬ e.type = file_type.directory_file := by rw [ht]; decide
      rw [immediate_files_cons_regular e rest ht,
        immediate_directories_cons_other e rest hnd]
      simp only [List.length_cons]
      omega
    · have hnr : ¬ e.type = file_type.regular_file := by rw [ht]; decide
      rw [immediate_files_cons_other e rest hnr,
        immediate_directories_cons_directory e rest ht]
      simp only [List.length_cons]
      omega

/-! ## The claims on averages, levels, failures and extrema -/

/-- C11: average zero-guard.  For every node of a tree of regular files and
directories, the averages handed to the renderer are evaluated without a
division by zero, the local average is 0 when `file_count = 0`, the recursive
average is 0 when `recursive_file_count = 0`, and a tree without a regular file
(such as a directory holding only empty subdirectories) has the recursive
average 0, emitted as 0. -/
theorem average_zero_guard (e : Entry) (level : Nat)
    (hwf : e.regular_or_directory = true) :
    ∃ r rep, traversal e level = some (r, rep) ∧
      average_size_checked r = some (average_size r) ∧
      recursive_average_size_checked r = some (recursive_average_size r) ∧
      rep.FindMember "Average size"
        = some (value.kDouble (convert_bytes_to_kb (average_size r))) ∧
      rep.FindMember "Recursive average size"
        = some (value.kDouble (convert_bytes_to_kb (recursive_average_size r))) ∧
      (r.file_count = 0 → average_size r = 0) ∧
      (r.recursive_file_count = 0 → recursive_average_size r = 0) ∧
      (e.subtree_files = 0 → r.recursive_file_count = 0 ∧
        rep.FindMember "Recursive average size" = some (value.kDouble 0)) := by
  obtain ⟨r, rep, hrun, hst⟩ := traversal_stats e level hwf
  obtain ⟨st, hr, hrep⟩ := traversal_eq_finish e level r rep hrun
  have hm := set_value_with_attributes_scalars e.path st.r.type level st.r.total_size
    st.r.recursive_total_size ((average_size st.r : Nat) : ℚ)
    ((recursive_average_size st.r : Nat) : ℚ) st.r.file_count st.r.recursive_file_count
    st.r.directory_count st.r.recursive_directory_count st.files st.maximum_size
    st.maximum_path st.minimum_size st.minimum_path
  have h1 : average_size_checked r = some (average_size r) := by
    unfold average_size_checked average_size size_t_div
    by_cases h : r.file_count = 0 <;> simp [h]
  have h2 : recursive_average_size_checked r = some (recursive_average_size r) := by
    unfold recursive_average_size_checked recursive_average_size size_t_div
    by_cases h : r.recursive_file_count = 0 <;> simp [h]
  have h3 : rep.FindMember "Average size"
      = some (value.kDouble (convert_bytes_to_kb (average_size r))) := by
    rw [hrep, hr]; exact hm.2.1
  have h4 : rep.FindMember "Recursive average size"
      = some (value.kDouble (convert_bytes_to_kb (recursive_average_size r))) := by
    rw [hrep, hr]; exact hm.2.2
  have h5 : r.file_count = 0 → average_size r = 0 := by
    intro h; simp [average_size, h]
  have h6 : r.recursive_file_count = 0 → recursive_average_size r = 0 := by
    intro h; simp [recursive_average_size, h]
  refine ⟨r, rep, hrun, h1, h2, h3, h4, h5, h6, ?_⟩
  intro hz
  have h7 : r.recursive_file_count = 0 := by
    rw [hst.recursive_file_count_eq, hz]; rfl
  refine ⟨h7, ?_⟩
  rw [h4, h6 h7]
  simp [convert_bytes_to_kb]

/-- The theorem of C11 on a directory that holds only empty subdirectories. -/
theorem average_zero_guard_witness :
    ∃ r rep, traversal only_empty_subdirectories 0 = some (r, rep) ∧
      average_size_checked r = some (average_size r) ∧
      recursive_average_size_checked r = some (recursive_average_size r) ∧
      rep.FindMember "Average size"
        = some (value.kDouble (convert_bytes_to_kb (average_size r))) ∧
      rep.FindMember "Recursive average size"
        = some (value.kDouble (convert_bytes_to_kb (recursive_average_size r))) ∧
      (r.file_count = 0 → average_size r = 0) ∧
      (r.recursive_file_count = 0 → recursive_average_size r = 0) ∧
      (only_empty_subdirectories.subtree_files = 0 → r.recursive_file_count = 0 ∧
        rep.FindMember "Recursive average size" = some (value.kDouble 0)) :=
  average_zero_guard only_empty_subdirectories 0 (by decide)

/-- C12: local against recursive figures.  A directory whose entries are one
regular file of size `a` and one subdirectory holding one regular file of size
`b` (with `a + b` fitting 64 bits), in either listing order, has
`total_size = a`, `recursive_total_size = a + b`, `file_count = 1`,
`recursive_file_count = 2`, `directory_count = 1` and
`recursive_directory_count = 1`. -/
theorem local_and_recursive_figures_diverge (pd pa ps pb : String) (a b level : Nat)
    (hfit : a + b < SIZE_MODULUS) :
    (∃ r rep,
      traversal (Entry.dir pd [Entry.file pa a, Entry.dir ps [Entry.file pb b]]) level
        = some (r, rep) ∧
      r.total_size = a ∧ r.recursive_total_size = a + b ∧ r.file_count = 1 ∧
      r.recursive_file_count = 2 ∧ r.directory_count = 1 ∧
      r.recursive_directory_count = 1) ∧
    (∃ r rep,
      traversal (Entry.dir pd [Entry.dir ps [Entry.file pb b], Entry.file pa a]) level
        = some (r, rep) ∧
      r.total_size = a ∧ r.recursive_total_size = a + b ∧ r.file_count = 1 ∧
      r.recursive_file_count = 2 ∧ r.directory_count = 1 ∧
      r.recursive_directory_count = 1) := by
  have ha : a < SIZE_MODULUS := lt_of_le_of_lt (Nat.le_add_right a b) hfit
  have hb : b < SIZE_MODULUS := lt_of_le_of_lt (Nat.le_add_left b a) hfit
  have hba : b + a < SIZE_MODULUS := by rw [Nat.add_comm]; exact hfit
  have h2 : (2 : Nat) % SIZE_MODULUS = 2 := by decide
  constructor
  · obtain ⟨r, rep, hrun, hst⟩ := traversal_stats
      (Entry.dir pd [Entry.file pa a, Entry.dir ps [Entry.file pb b]]) level
      (by simp [Entry.dir, Entry.file, Entry.regular_or_directory,
        all_regular_or_directory, ha, hb])
    refine ⟨r, rep, hrun, ?_, ?_, ?_, ?_, ?_, ?_⟩
    · simpa [Entry.dir, Entry.file, Entry.type, Entry.entries, Entry.size, immediate_bytes,
        immediate_files, Nat.mod_eq_of_lt ha] using hst.total_size_eq
    · simpa [Entry.dir, Entry.file, Entry.subtree_bytes, subtree_bytes_list,
        Nat.mod_eq_of_lt hfit] using hst.recursive_total_size_eq
    · simpa [Entry.dir, Entry.file, Entry.type, Entry.entries, immediate_files]
        using hst.file_count_eq
    · simpa [Entry.dir, Entry.file, Entry.subtree_files, subtree_files_list, h2]
        using hst.recursive_file_count_eq
    · simpa [Entry.dir, Entry.file, Entry.type, Entry.entries, immediate_directories]
        using hst.directory_count_eq
    · simpa [Entry.dir, Entry.file, Entry.subtree_directories, subtree_directories_list,
        Entry.type] using hst.recursive_directory_count_eq
  · obtain ⟨r, rep, hrun, hst⟩ := traversal_stats
      (Entry.dir pd [Entry.dir ps [Entry.file pb b], Entry.file pa a]) level
      (by simp [Entry.dir, Entry.file, Entry.regular_or_directory,
        all_regular_or_directory, ha, hb])
    refine ⟨r, rep, hrun, ?_, ?_, ?_, ?_, ?_, ?_⟩
    · simpa [Entry.dir, Entry.file, Entry.type, Entry.entries, Entry.size, immediate_bytes,
        immediate_files, Nat.mod_eq_of_lt ha] using hst.total_size_eq
    · have h := hst.recursive_total_size_eq
      simp only [Entry.dir, Entry.file, Entry.subtree_bytes, subtree_bytes_list] at h
      simp at h
      rw [h, Nat.mod_eq_of_lt hba, Nat.add_comm]
    · simpa [Entry.dir, Entry.file, Entry.type, Entry.entries, immediate_files]
        using hst.file_count_eq
    · simpa [Entry.dir, Entry.file, Entry.subtree_files, subtree_files_list, h2]
        using hst.recursive_file_count_eq
    · simpa [Entry.dir, Entry.file, Entry.type, Entry.entries, immediate_directories]
        using hst.directory_count_eq
    · simpa [Entry.dir, Entry.file, Entry.subtree_directories, subtree_directories_list,
        Entry.type] using hst.recursive_directory_count_eq

/-- The theorem of C12 at `a = 10`, `b = 20` and at `a = 100`, `b = 50`. -/
theorem local_and_recursive_figures_diverge_witness :
    ((∃ r rep,
      traversal (Entry.dir "D" [Entry.file "D/f" 10, Entry.dir "D/s" [Entry.file "D/s/g" 20]]) 0
        = some (r, rep) ∧
      r.total_size = 10 ∧ r.recursive_total_size = 10 + 20 ∧ r.file_count = 1 ∧
      r.recursive_file_count = 2 ∧ r.directory_count = 1 ∧
      r.recursive_directory_count = 1) ∧
    (∃ r rep,
      traversal (Entry.dir "D" [Entry.dir "D/s" [Entry.file "D/s/g" 20], Entry.file "D/f" 10]) 0
        = some (r, rep) ∧
      r.total_size = 10 ∧ r.recursive_total_size = 10 + 20 ∧ r.file_count = 1 ∧
      r.recursive_file_count = 2 ∧ r.directory_count = 1 ∧
      r.recursive_directory_count = 1)) ∧
    ((∃ r rep,
      traversal (Entry.dir "root" [Entry.file "root/a.txt" 100,
        Entry.dir "root/sub" [Entry.file "root/sub/b.txt" 50]]) 0 = some (r, rep) ∧
      r.total_size = 100 ∧ r.recursive_total_size = 100 + 50 ∧ r.file_count = 1 ∧
      r.recursive_file_count = 2 ∧ r.directory_count = 1 ∧
      r.recursive_directory_count = 1) ∧
    (∃ r rep,
      traversal (Entry.dir "root" [Entry.dir "root/sub" [Entry.file "root/sub/b.txt" 50],
        Entry.file "root/a.txt" 100]) 0 = some (r, rep) ∧
      r.total_size = 100 ∧ r.recursive_total_size = 100 + 50 ∧ r.file_count = 1 ∧
      r.recursive_file_count = 2 ∧ r.directory_count = 1 ∧
      r.recursive_directory_count = 1)) :=
  ⟨local_and_recursive_figures_diverge "D" "D/f" "D/s" "D/s/g" 10 20 0 (by decide),
   local_and_recursive_figures_diverge "root" "root/a.txt" "root/sub" "root/sub/b.txt"
     100 50 0 (by decide)⟩

/-- C13: on a tree of regular files and directories whose depth fits `size_t`,
the report of `traversal` is a report tree of the level handed in: its `Level` is
that level (0 for the root, which `main` hands the level 0), and every element of
every `Files` array has a `Level` exactly one more than the object that holds the
array, at every nesting depth. -/
theorem level_is_depth (e : Entry) (level : Nat) (hwf : e.regular_or_directory = true)
    (hfit : level + e.height < SIZE_MODULUS) :
    ∃ r rep, traversal e level = some (r, rep) ∧ LevelsFrom level rep ∧
      rep.FindMember "Level" = some (value.kUint64 level) ∧
      ∀ xs, rep.FindMember "Files" = some (value.kArray xs) →
        ∀ x, x ∈ xs → x.FindMember "Level" = some (value.kUint64 (level + 1)) := by
  obtain ⟨r, rep, hrun, hlev⟩ := traversal_levels e level hwf hfit
  refine ⟨r, rep, hrun, hlev, ?_, ?_⟩
  · cases hlev with
    | node _ _ h _ => exact h
  · intro xs hxs x hx
    cases hlev with
    | node _ _ _ hchildren =>
      cases hchildren xs hxs x hx with
      | node _ _ h _ => exact h

/-- The theorem of C13 on the scenario tree, scanned from the level 0. -/
theorem level_is_depth_witness :
    ∃ r rep, traversal scenario 0 = some (r, rep) ∧ LevelsFrom 0 rep ∧
      rep.FindMember "Level" = some (value.kUint64 0) ∧
      ∀ xs, rep.FindMember "Files" = some (value.kArray xs) →
        ∀ x, x ∈ xs → x.FindMember "Level" = some (value.kUint64 (0 + 1)) :=
  level_is_depth scenario 0 (by decide) (by decide)

/-- C14: a failure at any node of the subtree, be it a size query or a listing
that throws, propagates through every enclosing call: if `traversal` of a node
visited from the root returns no result, `traversal` of the root returns no
result and no report, at whatever levels the two are run. -/
theorem failure_propagates (node root : Entry) (l L : Nat)
    (hsub : in_subtree node root) (hfail : traversal node l = none) :
    traversal root L = none :=
  traversal_fails_of_in_subtree node root l L hsub hfail

/-- The theorem of C14 on a directory with a file whose size query throws two
levels down. -/
theorem failure_propagates_witness :
    in_subtree (Entry.mk "d/s/b" file_type.regular_file none none) unreadable_below ∧
    traversal (Entry.mk "d/s/b" file_type.regular_file none none) 2 = none ∧
    traversal unreadable_below 0 = none :=
  ⟨in_subtree.listed _ _ _ _ _ _ (by decide) (List.Mem.tail _ (List.Mem.head _))
      (in_subtree.listed _ _ _ _ _ _ (by decide) (List.Mem.head _) (in_subtree.root _)),
   rfl,
   failure_propagates (Entry.mk "d/s/b" file_type.regular_file none none) unreadable_below 2 0
     (in_subtree.listed _ _ _ _ _ _ (by decide) (List.Mem.tail _ (List.Mem.head _))
       (in_subtree.listed _ _ _ _ _ _ (by decide) (List.Mem.head _) (in_subtree.root _)))
     rfl⟩

/-- C15: the extrema of a directory are a function of its immediate regular-file
children alone.  For every directory of a tree of regular files and directories,
the emitted `Maximum` and `Minimum` are the running extrema folded over the
immediate regular files in listing order, and replacing the contents of any
subdirectory leaves both unchanged.  In the scenario tree both extrema of the
root are `root/a.txt` with 100 bytes; `root/sub/b.txt` is in neither. -/
theorem extrema_from_immediate_files (p p' : String) (s s' : Option Nat)
    (es es' : List Entry) (level level' : Nat)
    (hwf : (Entry.mk p file_type.directory_file s (some es)).regular_or_directory = true)
    (hwf' : (Entry.mk p' file_type.directory_file s' (some es')).regular_or_directory = true)
    (hrep : List.Forall₂ same_up_to_subdirectory es es') :
    (∃ r rep r' rep',
      traversal (Entry.mk p file_type.directory_file s (some es)) level = some (r, rep) ∧
      traversal (Entry.mk p' file_type.directory_file s' (some es')) level'
        = some (r', rep') ∧
      rep.FindMember "Maximum" =
        (if es.isEmpty then none
          else some (extremum_member
            (fold_maximum (SIZE_MIN, unknown_path) (immediate_files es)).1
            (fold_maximum (SIZE_MIN, unknown_path) (immediate_files es)).2)) ∧
      rep.FindMember "Minimum" =
        (if es.isEmpty then none
          else some (extremum_member
            (fold_minimum (SIZE_MAX, unknown_path) (immediate_files es)).1
            (fold_minimum (SIZE_MAX, unknown_path) (immediate_files es)).2)) ∧
      rep'.FindMember "Maximum" = rep.FindMember "Maximum" ∧
      rep'.FindMember "Minimum" = rep.FindMember "Minimum") ∧
    (∃ r rep, traversal scenario 0 = some (r, rep) ∧
      rep.FindMember "Maximum" = some (extremum_member 100 "root/a.txt") ∧
      rep.FindMember "Minimum" = some (extremum_member 100 "root/a.txt")) := by
  have key : ∀ (q : String) (sq : Option Nat) (fs : List Entry) (lvl : Nat),
      (Entry.mk q file_type.directory_file sq (some fs)).regular_or_directory = true →
      ∃ r rep, traversal (Entry.mk q file_type.directory_file sq (some fs)) lvl
          = some (r, rep) ∧
        rep.FindMember "Maximum" =
          (if fs.isEmpty then none
            else some (extremum_member
              (fold_maximum (SIZE_MIN, unknown_path) (immediate_files fs)).1
              (fold_maximum (SIZE_MIN, unknown_path) (immediate_files fs)).2)) ∧
        rep.FindMember "Minimum" =
          (if fs.isEmpty then none
            else some (extremum_member
              (fold_minimum (SIZE_MAX, unknown_path) (immediate_files fs)).1
              (fold_minimum (SIZE_MAX, unknown_path) (immediate_files fs)).2)) := by
    intro q sq fs lvl hq
    obtain ⟨st', hst, hrun⟩ := traversal_directory q sq fs lvl hq
    obtain ⟨r, rep, hrun', _, hrep'⟩ := split_finish _ _ _ _ hrun
    have hlen : st'.files.length = fs.length := by
      simpa [locals.init] using hst.files_length_eq
    have htype : st'.r.type = file_type.directory_file := by
      simpa [locals.init] using hst.type_eq
    have hmax := hst.maximum_eq
    have hmin := hst.minimum_eq
    simp only [locals.init] at hmax hmin
    have hm := set_value_with_attributes_members q st'.r.type lvl st'.r.total_size
      st'.r.recursive_total_size ((average_size st'.r : Nat) : ℚ)
      ((recursive_average_size st'.r : Nat) : ℚ) st'.r.file_count st'.r.recursive_file_count
      st'.r.directory_count st'.r.recursive_directory_count st'.files st'.maximum_size
      st'.maximum_path st'.minimum_size st'.minimum_path
    refine ⟨r, rep, hrun', ?_, ?_⟩
    · rw [hrep']
      simp only [finish]
      rw [hm.2.1, htype, hlen, ← hmax]
      cases fs <;> simp [extremum_member]
    · rw [hrep']
      simp only [finish]
      rw [hm.2.2, htype, hlen, ← hmin]
      cases fs <;> simp [extremum_member]
  constructor
  · obtain ⟨r, rep, hrun, hmax, hmin⟩ := key p s es level hwf
    obtain ⟨r', rep', hrun', hmax', hmin'⟩ := key p' s' es' level' hwf'
    have hfiles := immediate_files_of_same_up_to_subdirectory es es' hrep
    have hnil : es'.isEmpty = es.isEmpty := by
      cases hrep <;> rfl
    refine ⟨r, rep, r', rep', hrun, hrun', hmax, hmin, ?_, ?_⟩
    · rw [hmax', hmax, hfiles, hnil]
    · rw [hmin', hmin, hfiles, hnil]
  · obtain ⟨r, rep, hrun, hmax, hmin⟩ := key "root" none
      [Entry.file "root/a.txt" 100, Entry.dir "root/sub" [Entry.file "root/sub/b.txt" 50]]
      0 (by decide)
    refine ⟨r, rep, hrun, ?_, ?_⟩
    · rw [hmax]; rfl
    · rw [hmin]; rfl

/-- The theorem of C15 on the scenario tree and the scenario tree with other
contents in `root/sub`. -/
theorem extrema_from_immediate_files_witness :
    ∃ r rep r' rep',
      traversal scenario 0 = some (r, rep) ∧
      traversal scenario_replaced 0 = some (r', rep') ∧
      rep'.FindMember "Maximum" = rep.FindMember "Maximum" ∧
      rep'.FindMember "Minimum" = rep.FindMember "Minimum" :=
  match (extrema_from_immediate_files "root" "root" none none
      [Entry.file "root/a.txt" 100, Entry.dir "root/sub" [Entry.file "root/sub/b.txt" 50]]
      [Entry.file "root/a.txt" 100,
        Entry.dir "root/sub" [Entry.file "root/sub/c.txt" 700, Entry.dir "root/sub/t" []]]
      0 0 (by decide) (by decide)
      (List.Forall₂.cons (Or.inl ⟨rfl, rfl⟩)
        (List.Forall₂.cons (Or.inr ⟨rfl, rfl⟩) List.Forall₂.nil))).1 with
  | ⟨r, rep, r', rep', h1, h2, _, _, h5, h6⟩ => ⟨r, rep, r', rep', h1, h2, h5, h6⟩

/-- C16, evaluated at a first file of 0 bytes and at a first file of
`2 ^ 64 - 1` bytes: folding the empty file replaces the minimum but leaves the
maximum at its initial path `[unknown]`; folding the file of the largest size
replaces the maximum but leaves the minimum at `[unknown]`. -/
theorem first_file_at_the_bounds :
    (for_loop [Entry.file "d/empty" 0] 1 (locals.init file_type.directory_file)).map
        (fun st => (st.maximum_size, st.maximum_path, st.minimum_size, st.minimum_path))
      = some (0, "[unknown]", 0, "d/empty") ∧
    (for_loop [Entry.file "d/huge" SIZE_MAX] 1 (locals.init file_type.directory_file)).map
        (fun st => (st.maximum_size, st.maximum_path, st.minimum_size, st.minimum_path))
      = some (SIZE_MAX, "d/huge", SIZE_MAX, "[unknown]") := by
  constructor <;>
    simp [traversal, for_loop, Entry.file, finish, loop_body, locals.init, SIZE_MIN, SIZE_MAX,
      SIZE_MODULUS, unknown_path]

/-- C17, evaluated at a directory of two empty regular files: the reported
`Minimum` is the first of them, the reported `Maximum` has the path `[unknown]`
and not the path of the first file of the largest size. -/
theorem maximum_of_tied_empty_files :
    (traversal (Entry.dir "d" [Entry.file "d/a" 0, Entry.file "d/b" 0]) 0).map
        (fun x => (x.2.FindMember "Maximum", x.2.FindMember "Minimum"))
      = some (some (extremum_member 0 "[unknown]"), some (extremum_member 0 "d/a")) := by
  simp [traversal, for_loop, Entry.dir, Entry.file, finish, loop_body, locals.init,
    set_value_with_attributes, value.AddMember, value.FindMember, SIZE_MIN, SIZE_MAX,
    SIZE_MODULUS, unknown_path, extremum_member]

/-- C18, evaluated at a directory with a file of 1 byte and a file of 2 bytes:
`total_size` is 3 and `file_count` is 2, and the average handed to the renderer
is the truncated quotient 1, so that average times count is 2 and not 3. -/
theorem average_of_one_and_two_bytes :
    (traversal (Entry.dir "d" [Entry.file "d/a" 1, Entry.file "d/b" 2]) 0).map
        (fun x => (x.1.total_size, x.1.file_count, average_size x.1,
          average_size x.1 * x.1.file_count, x.2.FindMember "Average size"))
      = some (3, 2, 1, 2, some (value.kDouble (convert_bytes_to_kb 1))) := by
  simp [traversal, for_loop, Entry.dir, Entry.file, finish, loop_body, locals.init,
    set_value_with_attributes, value.AddMember, value.FindMember, SIZE_MIN, SIZE_MAX,
    SIZE_MODULUS, unknown_path, average_size]

/-- C19: for every directory of a tree of regular files and directories, the
array `files` holds exactly one report for each listed entry, in listing order
and whatever the kind of the entry, the i-th element being the report
`traversal` fills for the i-th entry one level down; it is emitted as `Files`
unless it is empty, and its length is `file_count + directory_count` when the
number of entries fits 64 bits. -/
theorem files_are_the_reports_of_the_entries (p : String) (s : Option Nat)
    (es : List Entry) (level : Nat)
    (hwf : (Entry.mk p file_type.directory_file s (some es)).regular_or_directory = true) :
    ∃ r rep reports,
      traversal (Entry.mk p file_type.directory_file s (some es)) level = some (r, rep) ∧
      List.Forall₂ (is_report_of ((level + 1) % SIZE_MODULUS)) es reports ∧
      reports.length = es.length ∧
      rep.FindMember "Files" = (if es.isEmpty then none else some (value.kArray reports)) ∧
      (es.length < SIZE_MODULUS → reports.length = r.file_count + r.directory_count) := by
  have hes : all_regular_or_directory es = true := by
    rcases regular_or_directory_cases _ _ _ _ hwf with ⟨ht, _⟩ | ⟨_, es', hl, hes'⟩
    · cases ht
    · cases hl; exact hes'
  obtain ⟨st', hrun, hst⟩ := for_loop_stats es ((level + 1) % SIZE_MODULUS)
    (locals.init file_type.directory_file) hes (init_bounded _)
  obtain ⟨reports, hfiles, hall⟩ := for_loop_files es _ _ _ hrun
  have hfiles' : st'.files = reports := by simpa [locals.init] using hfiles
  obtain ⟨r, rep, hrun', hr, hrep⟩ := split_finish
    (Entry.mk p file_type.directory_file s (some es)) p level st' (by simp [traversal, hrun])
  have htype : st'.r.type = file_type.directory_file := by
    simpa [locals.init] using hst.type_eq
  have hlen : reports.length = es.length := hall.length_eq.symm
  have hm := set_value_with_attributes_members p st'.r.type level st'.r.total_size
    st'.r.recursive_total_size ((average_size st'.r : Nat) : ℚ)
    ((recursive_average_size st'.r : Nat) : ℚ) st'.r.file_count st'.r.recursive_file_count
    st'.r.directory_count st'.r.recursive_directory_count st'.files st'.maximum_size
    st'.maximum_path st'.minimum_size st'.minimum_path
  refine ⟨r, rep, reports, hrun', hall, hlen, ?_, ?_⟩
  · rw [hrep]
    simp only [finish]
    rw [hm.1, htype, hfiles', hlen]
    cases es <;> simp
  · intro hfit
    have hsum := immediate_lengths es hes
    have hfc := hst.file_count_eq
    have hdc := hst.directory_count_eq
    simp only [locals.init, Nat.zero_add] at hfc hdc
    rw [hr, hfc, hdc, hlen, Nat.mod_eq_of_lt (by omega), Nat.mod_eq_of_lt (by omega)]
    exact hsum.symm

/-- The theorem of C19 on the root of the scenario tree. -/
theorem files_are_the_reports_of_the_entries_witness :
    ∃ r rep reports,
      traversal scenario 0 = some (r, rep) ∧
      List.Forall₂ (is_report_of ((0 + 1) % SIZE_MODULUS))
        [Entry.file "root/a.txt" 100, Entry.dir "root/sub" [Entry.file "root/sub/b.txt" 50]]
        reports ∧
      reports.length = 2 ∧
      rep.FindMember "Files" = some (value.kArray reports) ∧
      (2 < SIZE_MODULUS → reports.length = r.file_count + r.directory_count) :=
  files_are_the_reports_of_the_entries "root" none
    [Entry.file "root/a.txt" 100, Entry.dir "root/sub" [Entry.file "root/sub/b.txt" 50]] 0
    (by decide)

/-- C20: on the answers a filesystem can give, `traversal` returns a result and
a report exactly when every node of the tree is a regular file whose size query
succeeds or a directory whose listing succeeds; one visited entry of any other
status leaves the root without a result. -/
theorem traversal_total_iff (e : Entry) (level : Nat) (hc : e.consistent = true) :
    ((∃ r rep, traversal e level = some (r, rep)) ↔ e.regular_or_directory = true) ∧
    (∀ node, in_subtree node e → node.type ≠ file_type.regular_file →
      node.type ≠ file_type.directory_file → traversal e level = none) := by
  constructor
  · have h1 := traversal_isSome e level
    rw [readable_eq_regular_or_directory e hc] at h1
    constructor
    · rintro ⟨r, rep, hrun⟩
      rw [hrun] at h1
      exact h1.symm
    · intro hwf
      rw [hwf] at h1
      cases hrun : traversal e level with
      | none => rw [hrun] at h1; cases h1
      | some x => exact ⟨x.1, x.2, rfl⟩
  · intro node hsub hr hd
    have hnode := consistent_of_in_subtree node e hsub hc
    obtain ⟨p, t, s, _ | es⟩ := node
    · exact traversal_fails_of_in_subtree _ e level level hsub
        (traversal_fails_of_listing p t s level hr)
    · simp only [Entry.consistent, Bool.and_eq_true, decide_eq_true_eq] at hnode
      exact absurd hnode.2.1 hd

/-- The theorem of C20 on the scenario tree and on a directory that lists a
broken link. -/
theorem traversal_total_iff_witness :
    (((∃ r rep, traversal scenario 0 = some (r, rep))
        ↔ scenario.regular_or_directory = true) ∧
      (∀ node, in_subtree node scenario → node.type ≠ file_type.regular_file →
        node.type ≠ file_type.directory_file → traversal scenario 0 = none)) ∧
    (((∃ r rep, traversal (Entry.dir "d" [Entry.file "d/a" 10,
          Entry.mk "d/x" file_type.file_not_found none none]) 0 = some (r, rep))
        ↔ (Entry.dir "d" [Entry.file "d/a" 10,
          Entry.mk "d/x" file_type.file_not_found none none]).regular_or_directory = true) ∧
      (∀ node, in_subtree node (Entry.dir "d" [Entry.file "d/a" 10,
          Entry.mk "d/x" file_type.file_not_found none none]) →
        node.type ≠ file_type.regular_file → node.type ≠ file_type.directory_file →
        traversal (Entry.dir "d" [Entry.file "d/a" 10,
          Entry.mk "d/x" file_type.file_not_found none none]) 0 = none)) :=
  ⟨traversal_total_iff scenario 0 (by decide),
   traversal_total_iff (Entry.dir "d" [Entry.file "d/a" 10,
     Entry.mk "d/x" file_type.file_not_found none none]) 0 (by decide)⟩

end FsLearning
